import Mathlib

/-!
# Verification of the uart-to-gamepad protocol core

A shallow embedding, in Lean 4, of the protocol layer of the
`uart-to-gamepad` repository:

* the canonical gamepad state model (`gamepad-core/src/types.rs`),
* the ASCII line codec (`gamepad-core/src/parser.rs`,
  `gamepad-proto/src/format.rs`, `gamepad-proto/src/serialize.rs`),
* the binary MAVLink frame parser (`mavlink-proto/src/parser.rs`),
* the protocol mappers (`crsf-proto/src/mapping.rs`,
  `mavlink-proto/src/mapping.rs`),
* the bridge (`gamepad-core/src/bridge.rs`).

Machine integers are embedded as `Nat` (for `u8`/`u16` values) and `Int`
(for `i16`/`i32` values), with the relevant bounds carried as explicit
hypotheses or re-established by the arithmetic itself; byte strings are
`List Nat`.  Rust's truncating (toward-zero) integer division on `i32`
is `Int.tdiv`.  Fallible operations return `Except`.
-/

deriving instance DecidableEq for Except

namespace UartGamepad

/-! ## Data model (`gamepad-core/src/types.rs`)

`Buttons` is a `u16` bitfield; we embed it as its raw `Nat` value.
`AnalogStick` holds two `i16` fields, `GamepadState` the full snapshot. -/

/-- `Buttons(pub u16)` — button bitfield, embedded by its raw value. -/
structure Buttons where
  raw : Nat
deriving DecidableEq, Repr

/-- `Buttons::NONE`. -/
def Buttons.NONE : Buttons := ⟨0⟩

/-- `AnalogStick { x: i16, y: i16 }`. -/
structure AnalogStick where
  x : Int
  y : Int
deriving DecidableEq, Repr

/-- `AnalogStick::NEUTRAL`. -/
def AnalogStick.NEUTRAL : AnalogStick := ⟨0, 0⟩

/-- `AnalogStick::new`. -/
def AnalogStick.new (x y : Int) : AnalogStick := ⟨x, y⟩

/-- `GamepadState` — complete gamepad snapshot. -/
structure GamepadState where
  buttons : Buttons
  left_stick : AnalogStick
  right_stick : AnalogStick
  left_trigger : Nat
  right_trigger : Nat
deriving DecidableEq, Repr

/-- `GamepadState::neutral()` — the all-zero fail-safe state. -/
def GamepadState.neutral : GamepadState :=
  { buttons := Buttons.NONE
    left_stick := AnalogStick.NEUTRAL
    right_stick := AnalogStick.NEUTRAL
    left_trigger := 0
    right_trigger := 0 }

/-- `GamepadFieldUpdate` — a single-field update. -/
inductive GamepadFieldUpdate where
  | Buttons (b : Buttons)
  | LeftStickX (v : Int)
  | LeftStickY (v : Int)
  | RightStickX (v : Int)
  | RightStickY (v : Int)
  | LeftTrigger (v : Nat)
  | RightTrigger (v : Nat)
deriving DecidableEq, Repr

/-- `GamepadState::apply_update` — replace exactly the named field. -/
def GamepadState.apply_update (s : GamepadState) (update : GamepadFieldUpdate) :
    GamepadState :=
  match update with
  | .Buttons b => { s with buttons := b }
  | .LeftStickX x => { s with left_stick := { s.left_stick with x := x } }
  | .LeftStickY y => { s with left_stick := { s.left_stick with y := y } }
  | .RightStickX x => { s with right_stick := { s.right_stick with x := x } }
  | .RightStickY y => { s with right_stick := { s.right_stick with y := y } }
  | .LeftTrigger t => { s with left_trigger := t }
  | .RightTrigger t => { s with right_trigger := t }

/-- The seven scalar fields of a `GamepadState`, used to phrase frame
conditions ("changes only the named field"). -/
inductive Field where
  | FButtons | FLeftStickX | FLeftStickY | FRightStickX | FRightStickY
  | FLeftTrigger | FRightTrigger
deriving DecidableEq, Repr

/-- The field named by a `GamepadFieldUpdate`. -/
def GamepadFieldUpdate.field : GamepadFieldUpdate → Field
  | .Buttons _ => .FButtons
  | .LeftStickX _ => .FLeftStickX
  | .LeftStickY _ => .FLeftStickY
  | .RightStickX _ => .FRightStickX
  | .RightStickY _ => .FRightStickY
  | .LeftTrigger _ => .FLeftTrigger
  | .RightTrigger _ => .FRightTrigger

/-- Two states agree on every scalar field other than `f`. -/
def agreeExcept (f : Field) (s t : GamepadState) : Prop :=
  (f ≠ .FButtons → s.buttons = t.buttons) ∧
  (f ≠ .FLeftStickX → s.left_stick.x = t.left_stick.x) ∧
  (f ≠ .FLeftStickY → s.left_stick.y = t.left_stick.y) ∧
  (f ≠ .FRightStickX → s.right_stick.x = t.right_stick.x) ∧
  (f ≠ .FRightStickY → s.right_stick.y = t.right_stick.y) ∧
  (f ≠ .FLeftTrigger → s.left_trigger = t.left_trigger) ∧
  (f ≠ .FRightTrigger → s.right_trigger = t.right_trigger)

/-! ## Protocol mappers

`crsf-proto/src/mapping.rs` and `mavlink-proto/src/mapping.rs`.
All arithmetic in the source is on `i32`/`u32`, wide enough that the
products below never overflow; Rust's `/` on `i32` is `Int.tdiv`. -/

/-- Rust `i32::clamp(min, max)`: `min` if below, `max` if above. -/
def i32_clamp (x lo hi : Int) : Int :=
  if x < lo then lo else if x > hi then hi else x

/-- `CRSF_CENTER` (11-bit channel center). -/
def CRSF_CENTER : Nat := 992

/-- `CRSF_MAX` (11-bit channel maximum). -/
def CRSF_MAX : Nat := 1984

/-- `crsf_to_stick(val: u16, invert: bool) -> i16`
(`crsf-proto/src/mapping.rs`).  The source clamps into `i16` before the
optional negation; the value returned here is exact. -/
def crsf_to_stick (val : Nat) (invert : Bool) : Int :=
  let centered : Int := (val : Int) - (CRSF_CENTER : Int)
  let scaled := i32_clamp (Int.tdiv (centered * 32767) (CRSF_CENTER : Int)) (-32768) 32767
  if invert then -scaled else scaled

/-- `crsf_to_trigger(val: u16) -> u8` (`crsf-proto/src/mapping.rs`):
`((val as u32 * 255) / CRSF_MAX as u32).min(255) as u8`. -/
def crsf_to_trigger (val : Nat) : Nat :=
  min (val * 255 / CRSF_MAX) 255

/-- `mavlink_to_stick(val: i16, invert: bool) -> i16`
(`mavlink-proto/src/mapping.rs`).  The source computes
`(val as i32 * 32767 / 1000).clamp(-32768, 32767) as i16` and then
negates *as `i16`* when `invert` is set; we return the mathematical
value of that negation, so a result outside `[-32768, 32767]` is an
`i16` overflow in the source (panic with overflow checks enabled,
wrap-around in release builds). -/
def mavlink_to_stick (val : Int) (invert : Bool) : Int :=
  let scaled := i32_clamp (Int.tdiv (val * 32767) 1000) (-32768) 32767
  if invert then -scaled else scaled

/-- `mavlink_z_to_trigger(z: i16) -> u8` (`mavlink-proto/src/mapping.rs`):
`let clamped = z.clamp(0, 1000) as u32; ((clamped * 255) / 1000) as u8`. -/
def mavlink_z_to_trigger (z : Int) : Nat :=
  (i32_clamp z 0 1000).toNat * 255 / 1000

/-! ## ASCII line codec — parsing (`gamepad-core/src/parser.rs`)

Lines are byte lists; every byte of a real line is `< 256`. -/

/-- `InputError` (`gamepad-core/src/input.rs`). -/
inductive InputError where
  | Io | Parse | Checksum | Disconnected | BufferOverflow | Framing
deriving DecidableEq, Repr

/-- `ParsedMessage` — full state or single-field update. -/
inductive ParsedMessage where
  | FullState (s : GamepadState)
  | Update (u : GamepadFieldUpdate)
deriving DecidableEq, Repr

/-- `MIN_FULL_STATE_LEN` — minimum full-state message length. -/
def MIN_FULL_STATE_LEN : Nat := 20

/-- `MIN_UPDATE_LEN` — minimum update message length. -/
def MIN_UPDATE_LEN : Nat := 7

/-- `calculate_checksum` — XOR fold of the payload bytes. -/
def calculate_checksum (data : List Nat) : Nat :=
  data.foldl (fun acc b => acc ^^^ b) 0

/-- `strip_line_ending` — drop one trailing LF, then one trailing CR. -/
def strip_line_ending (line : List Nat) : List Nat :=
  let l1 := if line.getLast? = some 10 then line.dropLast else line
  if l1.getLast? = some 13 then l1.dropLast else l1

/-- `hex_digit` — value of one hex character. -/
def hex_digit (b : Nat) : Except InputError Nat :=
  if 48 ≤ b ∧ b ≤ 57 then .ok (b - 48)          -- b'0'..=b'9'
  else if 65 ≤ b ∧ b ≤ 70 then .ok (b - 65 + 10) -- b'A'..=b'F'
  else if 97 ≤ b ∧ b ≤ 102 then .ok (b - 97 + 10) -- b'a'..=b'f'
  else .error .Parse

/-- Accumulator loop of `parse_hex_u16`: `value = (value << 4) | digit`.
The source's comment notes the shift can never overflow `u16` for the
four digits processed, so the step is exactly `value * 16 + digit`. -/
def hex_accum_loop : List Nat → Nat → Except InputError Nat
  | [], value => .ok value
  | b :: rest, value => do
    let digit ← hex_digit b
    hex_accum_loop rest (value * 16 + digit)

/-- `parse_hex_u16` — exactly 4 hex characters into a `u16`. -/
def parse_hex_u16 (s : List Nat) : Except InputError Nat :=
  if s.length = 4 then hex_accum_loop s 0 else .error .Parse

/-- `parse_hex_u8` — exactly 2 hex characters into a `u8`
(`(high << 4) | low` with `high, low < 16` is `high * 16 + low`). -/
def parse_hex_u8 (s : List Nat) : Except InputError Nat :=
  match s with
  | [b0, b1] => do
    let high ← hex_digit b0
    let low ← hex_digit b1
    .ok (high * 16 + low)
  | _ => .error .Parse

/-- `trim_leading_whitespace` — drop leading spaces. -/
def trim_leading_whitespace (s : List Nat) : List Nat :=
  s.dropWhile (fun b => b = 32)

/-- Digit-accumulation loop shared by `parse_i16` and `parse_u8`.  The
source accumulates into `i32` (resp. `u16`), always non-negative, with
`checked_mul`/`checked_add` erroring out on overflow; `maxVal` is the
type's maximum (`2147483647` resp. `65535`), so the checked step fails
exactly when `value * 10 + digit > maxVal`. -/
def decimal_accum_loop (maxVal : Nat) : List Nat → Nat → Except InputError Nat
  | [], value => .ok value
  | b :: rest, value =>
    if 48 ≤ b ∧ b ≤ 57 then        -- b.is_ascii_digit()
      let value' := value * 10 + (b - 48)
      if value' ≤ maxVal then decimal_accum_loop maxVal rest value'
      else .error .Parse
    else .error .Parse

/-- Digit-and-range phase of `parse_i16`, after the optional sign has
been split off: accumulate in `i32`, negate if the sign was `b'-'`,
then range-check against `i16`. -/
def parse_i16_tail (negative : Bool) (s' : List Nat) : Except InputError Int :=
  if s' = [] then .error .Parse
  else
    match decimal_accum_loop 2147483647 s' 0 with
    | .error e => .error e
    | .ok value =>
      let value : Int := if negative then -(value : Int) else (value : Int)
      if value < -32768 ∨ value > 32767 then .error .Parse
      else .ok value

/-- `parse_i16` — signed decimal with optional leading spaces and sign,
accumulated in `i32`, then range-checked against `i16`. -/
def parse_i16 (s : List Nat) : Except InputError Int :=
  let s := trim_leading_whitespace s
  match s with
  | [] => .error .Parse
  | b0 :: rest =>
    if b0 = 45 then parse_i16_tail true rest          -- b'-'
    else if b0 = 43 then parse_i16_tail false rest    -- b'+'
    else parse_i16_tail false (b0 :: rest)

/-- `parse_u8` — unsigned decimal with optional leading spaces,
accumulated in `u16`, then range-checked against `u8`. -/
def parse_u8 (s : List Nat) : Except InputError Nat :=
  let s := trim_leading_whitespace s
  if s = [] then .error .Parse
  else
    match decimal_accum_loop 65535 s 0 with
    | .error e => .error e
    | .ok value =>
      if value > 255 then .error .Parse
      else .ok value

/-- Index of the last `b'*'` (byte 42): `line.iter().rposition(|&b| b == b'*')`. -/
def rpositionStar : List Nat → Option Nat
  | [] => none
  | b :: rest =>
    match rpositionStar rest with
    | some i => some (i + 1)
    | none => if b = 42 then some 0 else none

/-- `extract_verified_payload` — length check, locate the checksum
separator, parse and compare the checksum, return the payload slice. -/
def extract_verified_payload (line : List Nat) (min_len : Nat) :
    Except InputError (List Nat) :=
  if line.length < min_len then .error .Parse
  else
    match rpositionStar line with
    | none => .error .Parse
    | some checksum_pos =>
      if checksum_pos + 3 > line.length then .error .Parse
      else
        let payload := (line.drop 1).take (checksum_pos - 1)  -- line[1..checksum_pos]
        let checksum_str := line.drop (checksum_pos + 1)
        let expected_checksum := calculate_checksum payload
        match parse_hex_u8 checksum_str with
        | .error e => .error e
        | .ok received_checksum =>
          if expected_checksum ≠ received_checksum then .error .Checksum
          else .ok payload

/-- Rust's `slice::split` on `b':'` (byte 58): the empty slice yields one
empty part, and every separator starts a new part. -/
def splitColon : List Nat → List (List Nat)
  | [] => [[]]
  | b :: rest =>
    if b = 58 then [] :: splitColon rest
    else
      match splitColon rest with
      | [] => [[b]]          -- unreachable: splitColon never returns []
      | part :: parts => (b :: part) :: parts

/-- `parse_full_state` — payload is `buttons:lx:ly:rx:ry:lt:rt`; the
source draws seven parts from the split iterator and requires that no
eighth exists, i.e. the split has exactly seven parts. -/
def parse_full_state (line : List Nat) : Except InputError GamepadState :=
  if line.head? ≠ some 71 then .error .Parse  -- b'G'
  else do
    let payload ← extract_verified_payload line MIN_FULL_STATE_LEN
    match splitColon payload with
    | [buttons_str, lx_str, ly_str, rx_str, ry_str, lt_str, rt_str] => do
      let buttons ← parse_hex_u16 buttons_str
      let lx ← parse_i16 lx_str
      let ly ← parse_i16 ly_str
      let rx ← parse_i16 rx_str
      let ry ← parse_i16 ry_str
      let lt ← parse_u8 lt_str
      let rt ← parse_u8 rt_str
      .ok { buttons := ⟨buttons⟩
            left_stick := AnalogStick.new lx ly
            right_stick := AnalogStick.new rx ry
            left_trigger := lt
            right_trigger := rt }
    | _ => .error .Parse

/-- First `b':'` in the payload: `payload.iter().position(|&b| b == b':')`. -/
def positionColon : List Nat → Option Nat
  | [] => none
  | b :: rest =>
    if b = 58 then some 0
    else (positionColon rest).map (fun i => i + 1)

/-- Field dispatch of `parse_update` on the verified payload
`<field>:<value>`: locate the colon, split, and parse the value
according to the field identifier. -/
def parse_update_payload (payload : List Nat) : Except InputError GamepadFieldUpdate :=
  match positionColon payload with
  | none => .error .Parse
  | some colon_pos =>
    let field := payload.take colon_pos
    let value := payload.drop (colon_pos + 1)
    match field with
    | [66] => do .ok (.Buttons ⟨← parse_hex_u16 value⟩)       -- "B"
    | [76, 88] => do .ok (.LeftStickX (← parse_i16 value))    -- "LX"
    | [76, 89] => do .ok (.LeftStickY (← parse_i16 value))    -- "LY"
    | [82, 88] => do .ok (.RightStickX (← parse_i16 value))   -- "RX"
    | [82, 89] => do .ok (.RightStickY (← parse_i16 value))   -- "RY"
    | [76, 84] => do .ok (.LeftTrigger (← parse_u8 value))    -- "LT"
    | [82, 84] => do .ok (.RightTrigger (← parse_u8 value))   -- "RT"
    | _ => .error .Parse

/-- `parse_update` — payload is `<field>:<value>`. -/
def parse_update (line : List Nat) : Except InputError GamepadFieldUpdate :=
  if line.head? ≠ some 85 then .error .Parse  -- b'U'
  else do
    let payload ← extract_verified_payload line MIN_UPDATE_LEN
    parse_update_payload payload

/-- `parse` — parse a complete line as a full gamepad state. -/
def parse (line : List Nat) : Except InputError GamepadState :=
  parse_full_state (strip_line_ending line)

/-- `parse_message` — dispatch on the message prefix. -/
def parse_message (line : List Nat) : Except InputError ParsedMessage :=
  let line := strip_line_ending line
  match line with
  | [] => .error .Parse
  | b :: _ =>
    if b = 71 then (parse_full_state line).map ParsedMessage.FullState
    else if b = 85 then (parse_update line).map ParsedMessage.Update
    else .error .Parse

/-! ## ASCII line codec — serialization

`gamepad-proto/src/format.rs` (number formatting) and
`gamepad-proto/src/serialize.rs` (message assembly).  The source writes
into caller-provided buffers; the embedding produces the written byte
list, with the buffer-size precondition kept as an explicit check. -/

/-- `HEX_DIGITS` — `b"0123456789ABCDEF"`. -/
def HEX_DIGITS : List Nat :=
  [48, 49, 50, 51, 52, 53, 54, 55, 56, 57, 65, 66, 67, 68, 69, 70]

/-- Look up one nibble in `HEX_DIGITS`. -/
def hexChar (n : Nat) : Nat := HEX_DIGITS.getD n 0

/-- `write_hex_u16` — 4 uppercase hex digits, `(value >> k) & 0xF` is
`value / 2 ^ k % 16`. -/
def write_hex_u16 (value : Nat) : List Nat :=
  [hexChar (value / 4096 % 16), hexChar (value / 256 % 16),
   hexChar (value / 16 % 16), hexChar (value % 16)]

/-- `write_hex_u8` — 2 uppercase hex digits (`value` is a `u8`, so
`value >> 4` is already `< 16`). -/
def write_hex_u8 (value : Nat) : List Nat :=
  [hexChar (value / 16), hexChar (value % 16)]

/-- The `temp` buffer built by the digit loops of `write_i16` and
`write_u8`: decimal digit values of `n`, least significant first. -/
def decDigitsLE (n : Nat) : List Nat :=
  if h : n = 0 then [] else n % 10 :: decDigitsLE (n / 10)
termination_by n
decreasing_by exact Nat.div_lt_self (Nat.pos_of_ne_zero h) (by omega)

/-- Digits emitted in the correct order, as ASCII (`b'0' + digit`). -/
def writeDigitsBE (n : Nat) : List Nat :=
  (decDigitsLE n).reverse.map (fun d => 48 + d)

/-- `write_u8` — unsigned decimal string of a `u8`. -/
def write_u8 (value : Nat) : List Nat :=
  if value = 0 then [48] else writeDigitsBE value

/-- `write_i16` — signed decimal string of an `i16`; `i16::MIN` is the
source's special case emitting `"-32768"` directly. -/
def write_i16 (value : Int) : List Nat :=
  if value = 0 then [48]
  else if value < 0 then
    if value = -32768 then [45, 51, 50, 55, 54, 56]  -- b"-32768"
    else 45 :: writeDigitsBE (-value).toNat
  else writeDigitsBE value.toNat

/-- `MAX_FULL_STATE_SIZE`. -/
def MAX_FULL_STATE_SIZE : Nat := 48

/-- `MAX_UPDATE_SIZE`. -/
def MAX_UPDATE_SIZE : Nat := 16

/-- `SerializeError` (`gamepad-proto/src/serialize.rs`). -/
inductive SerializeError where
  | BufferTooSmall | WriteError
deriving DecidableEq, Repr

/-- Payload of a serialized full-state message
(`buttons:lx:ly:rx:ry:lt:rt`), as built in `payload_buf`. -/
def serialize_full_state_payload (s : GamepadState) : List Nat :=
  write_hex_u16 s.buttons.raw ++ [58] ++
  write_i16 s.left_stick.x ++ [58] ++
  write_i16 s.left_stick.y ++ [58] ++
  write_i16 s.right_stick.x ++ [58] ++
  write_i16 s.right_stick.y ++ [58] ++
  write_u8 s.left_trigger ++ [58] ++
  write_u8 s.right_trigger

/-- Bytes of a serialized full-state message:
`b'G'`, payload, `b'*'`, 2-digit checksum, `b'\n'`. -/
def serialize_full_state_bytes (s : GamepadState) : List Nat :=
  let payload := serialize_full_state_payload s
  71 :: payload ++ 42 :: write_hex_u8 (calculate_checksum payload) ++ [10]

/-- `<GamepadState as Serialize>::serialize` — fails on a buffer smaller
than `MAX_FULL_STATE_SIZE`, otherwise writes the message. -/
def GamepadState.serialize (bufLen : Nat) (s : GamepadState) :
    Except SerializeError (List Nat) :=
  if bufLen < MAX_FULL_STATE_SIZE then .error .BufferTooSmall
  else .ok (serialize_full_state_bytes s)

/-- Payload of a serialized update message (`<field>:<value>`). -/
def serialize_update_payload (u : GamepadFieldUpdate) : List Nat :=
  match u with
  | .Buttons b => 66 :: 58 :: write_hex_u16 b.raw          -- "B:"
  | .LeftStickX v => 76 :: 88 :: 58 :: write_i16 v         -- "LX:"
  | .LeftStickY v => 76 :: 89 :: 58 :: write_i16 v         -- "LY:"
  | .RightStickX v => 82 :: 88 :: 58 :: write_i16 v        -- "RX:"
  | .RightStickY v => 82 :: 89 :: 58 :: write_i16 v        -- "RY:"
  | .LeftTrigger v => 76 :: 84 :: 58 :: write_u8 v         -- "LT:"
  | .RightTrigger v => 82 :: 84 :: 58 :: write_u8 v        -- "RT:"

/-- Bytes of a serialized update message:
`b'U'`, payload, `b'*'`, 2-digit checksum, `b'\n'`. -/
def serialize_update_bytes (u : GamepadFieldUpdate) : List Nat :=
  let payload := serialize_update_payload u
  85 :: payload ++ 42 :: write_hex_u8 (calculate_checksum payload) ++ [10]

/-- `<GamepadFieldUpdate as Serialize>::serialize` — fails on a buffer
smaller than `MAX_UPDATE_SIZE`, otherwise writes the message. -/
def GamepadFieldUpdate.serialize (bufLen : Nat) (u : GamepadFieldUpdate) :
    Except SerializeError (List Nat) :=
  if bufLen < MAX_UPDATE_SIZE then .error .BufferTooSmall
  else .ok (serialize_update_bytes u)

/-! ## Well-formedness of machine-integer fields

The Rust types make these bounds implicit (`u16`, `i16`, `u8`); the
embedding carries them as predicates. -/

/-- The fields of a `GamepadState` fit their machine types. -/
def WfState (s : GamepadState) : Prop :=
  s.buttons.raw < 65536 ∧
  -32768 ≤ s.left_stick.x ∧ s.left_stick.x ≤ 32767 ∧
  -32768 ≤ s.left_stick.y ∧ s.left_stick.y ≤ 32767 ∧
  -32768 ≤ s.right_stick.x ∧ s.right_stick.x ≤ 32767 ∧
  -32768 ≤ s.right_stick.y ∧ s.right_stick.y ≤ 32767 ∧
  s.left_trigger < 256 ∧ s.right_trigger < 256

instance (s : GamepadState) : Decidable (WfState s) := by
  unfold WfState; infer_instance

/-- The scalar of a `GamepadFieldUpdate` fits its machine type. -/
def WfUpdate (u : GamepadFieldUpdate) : Prop :=
  match u with
  | .Buttons b => b.raw < 65536
  | .LeftStickX v | .LeftStickY v | .RightStickX v | .RightStickY v =>
    -32768 ≤ v ∧ v ≤ 32767
  | .LeftTrigger v | .RightTrigger v => v < 256

instance (u : GamepadFieldUpdate) : Decidable (WfUpdate u) := by
  unfold WfUpdate; cases u <;> infer_instance

/-! ## Bridge (`gamepad-core/src/bridge.rs`)

`GamepadBridge::process_one` awaits one `receive()` from the input
source and forwards to the output sink.  The embedding takes the
outcome of that `receive()` and the sink's `send` behaviour as
arguments and returns the bridge result together with the list of
states passed to `send`, in order. -/

/-- `OutputError` (`gamepad-core/src/output.rs`). -/
inductive OutputError where
  | Io | NotReady | Dropped | Busy
deriving DecidableEq, Repr

/-- `BridgeError`. -/
inductive BridgeError where
  | Input (e : InputError)
  | Output (e : OutputError)
deriving DecidableEq, Repr

/-- `GamepadBridge::process_one`.  On `Ok(state)` it sends `state` and
maps a send failure through `BridgeError::Output`; on `Err(e)` it sends
`GamepadState::neutral()`, discards that send's outcome with `let _ =`,
and returns `BridgeError::Input(e)`. -/
def process_one (recv : Except InputError GamepadState)
    (send : GamepadState → Except OutputError Unit) :
    Except BridgeError Unit × List GamepadState :=
  match recv with
  | .ok state =>
    match send state with
    | .ok _ => (.ok (), [state])
    | .error e => (.error (.Output e), [state])
  | .error e =>
    (.error (.Input e), [GamepadState.neutral])

/-! ## Binary frame parser (`mavlink-proto/src/parser.rs`)

A byte-at-a-time state machine over a fixed 280-byte buffer.  Rust's
mutation of `self` becomes explicit state passing: `push_byte` returns
the successor state together with the `Result`. -/

/-- `MAVLINK_STX_V1`. -/
def MAVLINK_STX_V1 : Nat := 254

/-- `MAVLINK_STX_V2`. -/
def MAVLINK_STX_V2 : Nat := 253

/-- `MAX_FRAME_SIZE`. -/
def MAX_FRAME_SIZE : Nat := 280

/-- `MSG_ID_MANUAL_CONTROL`. -/
def MSG_ID_MANUAL_CONTROL : Nat := 69

/-- `MSG_ID_HEARTBEAT`. -/
def MSG_ID_HEARTBEAT : Nat := 0

/-- `CRC_EXTRA_MANUAL_CONTROL`. -/
def CRC_EXTRA_MANUAL_CONTROL : Nat := 243

/-- `CRC_EXTRA_HEARTBEAT`. -/
def CRC_EXTRA_HEARTBEAT : Nat := 50

/-- `ManualControl` — decoded MANUAL_CONTROL fields. -/
structure ManualControl where
  target : Nat
  x : Int
  y : Int
  z : Int
  r : Int
  buttons : Nat
  buttons2 : Nat
deriving DecidableEq, Repr

/-- `MavMessage`. -/
inductive MavMessage where
  | ManualControl (m : ManualControl)
  | Heartbeat
  | Unknown (id : Nat)
deriving DecidableEq, Repr

/-- `ParseError` of the MAVLink parser. -/
inductive MavParseError where
  | Incomplete | InvalidStart | CrcError | Unsupported
deriving DecidableEq, Repr

/-- `ParserState`. -/
inductive ParserState where
  | WaitingForStart
  | ReadingHeader
  | ReadingPayload (expected_len : Nat)
deriving DecidableEq, Repr

/-- `MavlinkParser` — buffer, write position, state. -/
structure MavlinkParser where
  buffer : List Nat
  pos : Nat
  state : ParserState
deriving DecidableEq, Repr

/-- `MavlinkParser::new`. -/
def MavlinkParser.new : MavlinkParser :=
  { buffer := List.replicate MAX_FRAME_SIZE 0
    pos := 0
    state := .WaitingForStart }

/-- `MavlinkParser::reset` — clears position and state, keeps buffer. -/
def MavlinkParser.reset (p : MavlinkParser) : MavlinkParser :=
  { p with pos := 0, state := .WaitingForStart }

/-- `crc_accumulate` — one byte of CRC-16/MCRF4XX.  All values are
`u16`; the left shifts truncate, hence the explicit `% 65536`. -/
def crc_accumulate (byte : Nat) (crc : Nat) : Nat :=
  let tmp := byte ^^^ (crc % 256)
  let tmp := tmp ^^^ (tmp * 16 % 65536)
  (crc / 256) ^^^ (tmp * 256 % 65536) ^^^ (tmp * 8 % 65536) ^^^ (tmp / 16)

/-- `crc16_mcrf4xx` — fold over the data, then fold in `crc_extra`. -/
def crc16_mcrf4xx (data : List Nat) (crc_extra : Nat) : Nat :=
  crc_accumulate crc_extra (data.foldl (fun crc b => crc_accumulate b crc) 65535)

/-- The header size selected by the start byte:
`if self.buffer[0] == MAVLINK_STX_V2 { 10 } else { 6 }`. -/
def headerSizeOf (b0 : Nat) : Nat :=
  if b0 = MAVLINK_STX_V2 then 10 else 6

/-- `MavlinkParser::parse_frame` — decode a complete frame sitting in
the buffer. -/
def parse_frame (buffer : List Nat) : Except MavParseError (Option MavMessage) :=
  let is_v2 := buffer.getD 0 0 = MAVLINK_STX_V2
  let payload_len := buffer.getD 1 0
  let (msg_id, payload_start) :=
    if is_v2 then
      (buffer.getD 7 0 + buffer.getD 8 0 * 256 + buffer.getD 9 0 * 65536, 10)
    else
      (buffer.getD 5 0, 6)
  let payload := (buffer.drop payload_start).take payload_len
  let crc_start := payload_start + payload_len
  if msg_id = MSG_ID_MANUAL_CONTROL then
    parse_frame_checked buffer payload payload_len crc_start
      CRC_EXTRA_MANUAL_CONTROL msg_id is_v2
  else if msg_id = MSG_ID_HEARTBEAT then
    parse_frame_checked buffer payload payload_len crc_start
      CRC_EXTRA_HEARTBEAT msg_id is_v2
  else
    .ok (some (.Unknown msg_id))
where
  /-- The CRC check and message decode shared by the two recognized
  message ids (the source reaches this code after the `crc_extra`
  `match` returns early for unknown ids). -/
  parse_frame_checked (buffer payload_list : List Nat)
      (payload_len crc_start crc_extra msg_id : Nat) (is_v2 : Bool) :
      Except MavParseError (Option MavMessage) :=
    let crc_data_end := (if is_v2 then 10 else 6) + payload_len
    let calculated_crc :=
      crc16_mcrf4xx ((buffer.drop 1).take (crc_data_end - 1)) crc_extra
    let received_crc := buffer.getD crc_start 0 + buffer.getD (crc_start + 1) 0 * 256
    if calculated_crc ≠ received_crc then .error .CrcError
    else if msg_id = MSG_ID_MANUAL_CONTROL then
      if payload_len < 11 then .error .Incomplete
      else
        .ok (some (.ManualControl
          { target := payload_list.getD 0 0
            x := i16_from_le (payload_list.getD 1 0) (payload_list.getD 2 0)
            y := i16_from_le (payload_list.getD 3 0) (payload_list.getD 4 0)
            z := i16_from_le (payload_list.getD 5 0) (payload_list.getD 6 0)
            r := i16_from_le (payload_list.getD 7 0) (payload_list.getD 8 0)
            buttons := payload_list.getD 9 0 + payload_list.getD 10 0 * 256
            buttons2 :=
              if payload_len ≥ 13 then
                payload_list.getD 11 0 + payload_list.getD 12 0 * 256
              else 0 }))
    else .ok (some .Heartbeat)
  /-- `i16::from_le_bytes([lo, hi])`. -/
  i16_from_le (lo hi : Nat) : Int :=
    let u := lo + hi * 256
    if u < 32768 then (u : Int) else (u : Int) - 65536

/-- `MavlinkParser::push_byte` — feed one byte, producing the successor
parser and the `Result`. -/
def push_byte (p : MavlinkParser) (byte : Nat) :
    MavlinkParser × Except MavParseError (Option MavMessage) :=
  match p.state with
  | .WaitingForStart =>
    if byte = MAVLINK_STX_V1 ∨ byte = MAVLINK_STX_V2 then
      ({ buffer := p.buffer.set 0 byte, pos := 1, state := .ReadingHeader },
       .ok none)
    else (p, .ok none)
  | .ReadingHeader =>
    let buffer := p.buffer.set p.pos byte
    let pos := p.pos + 1
    let header_size := headerSizeOf (buffer.getD 0 0)
    if pos ≥ header_size then
      let payload_len := buffer.getD 1 0
      let expected_len := header_size + payload_len + 2
      if expected_len > MAX_FRAME_SIZE then
        ({ buffer := buffer, pos := 0, state := .WaitingForStart },
         .error .InvalidStart)
      else
        ({ buffer := buffer, pos := pos, state := .ReadingPayload expected_len },
         .ok none)
    else
      ({ buffer := buffer, pos := pos, state := .ReadingHeader }, .ok none)
  | .ReadingPayload expected_len =>
    let buffer := p.buffer.set p.pos byte
    let pos := p.pos + 1
    if pos ≥ expected_len then
      ({ buffer := buffer, pos := 0, state := .WaitingForStart },
       parse_frame buffer)
    else
      ({ buffer := buffer, pos := pos, state := .ReadingPayload expected_len },
       .ok none)

/-- Final parser state after feeding a byte sequence. -/
def runState (p : MavlinkParser) : List Nat → MavlinkParser
  | [] => p
  | b :: rest => runState (push_byte p b).1 rest

/-- The sequence of `push_byte` results over a byte sequence. -/
def runResults (p : MavlinkParser) :
    List Nat → List (Except MavParseError (Option MavMessage))
  | [] => []
  | b :: rest =>
    (push_byte p b).2 :: runResults (push_byte p b).1 rest

/-! ## C9 — update application: frame effect and idempotence -/

/-- C9: for every `GamepadState` `s` and `GamepadFieldUpdate` `u`,
`apply_update` changes only the field named by `u` (every other scalar
field keeps its prior value), and applying `u` twice yields the same
state as applying it once. -/
theorem claim9_apply_update_frame_and_idempotent
    (s : GamepadState) (u : GamepadFieldUpdate) :
    agreeExcept u.field s (s.apply_update u) ∧
    (s.apply_update u).apply_update u = s.apply_update u := by
  cases u <;>
    simp [GamepadState.apply_update, agreeExcept, GamepadFieldUpdate.field]

/-! ## C2 — bridge `process_one` semantics -/

/-- C2: if the input's `receive()` returns `Ok(state)`, `process_one`
sends exactly that state to the sink and propagates the sink's error
wrapped as `BridgeError::Output`; if `receive()` returns `Err(e)`,
`process_one` sends `GamepadState::neutral()`, discards that send's
outcome, and returns `BridgeError::Input(e)`. -/
theorem claim2_process_one_semantics
    (recv : Except InputError GamepadState)
    (send : GamepadState → Except OutputError Unit) :
    (∀ s, recv = .ok s →
      (process_one recv send).2 = [s] ∧
      (process_one recv send).1 =
        (match send s with
         | .ok _ => .ok ()
         | .error e => .error (.Output e))) ∧
    (∀ e, recv = .error e →
      (process_one recv send).2 = [GamepadState.neutral] ∧
      (process_one recv send).1 = .error (.Input e)) := by
  constructor
  · intro s hs
    subst hs
    cases h : send s <;> simp [process_one, h]
  · intro e he
    subst he
    simp [process_one]

/-- Witness for C2 at a concrete input and sink: a successful receive
of the neutral state with an always-failing sink. -/
theorem claim2_process_one_semantics_witness :
    (process_one (.ok GamepadState.neutral)
        (fun _ => .error .NotReady)).2 = [GamepadState.neutral] ∧
    (process_one (.ok GamepadState.neutral)
        (fun _ => .error .NotReady)).1 = .error (.Output .NotReady) := by
  have h := (claim2_process_one_semantics (.ok GamepadState.neutral)
    (fun _ => .error .NotReady)).1 GamepadState.neutral rfl
  exact ⟨h.1, h.2⟩

/-! ## C5 — mapper totality: refuted by `mavlink_to_stick`'s inversion

For `val ≤ -1001` the clamp produces `scaled = -32768`, and the
source's `if invert { -scaled }` negates it *as an `i16`*: `32768` does
not fit, so the negation overflows (panic with overflow checks enabled,
wrap to `-32768` in release).  The theorem evaluates the embedded code
at the claim's own domain extreme `i16::MIN`. -/

/-- C5 (failing input): at `val = -32768` (`i16::MIN`) with
`invert = true`, the mathematical value of the final negation is
`32768`, which exceeds `i16::MAX` — the `i16` negation in the source
overflows instead of returning an in-range stick value. -/
theorem claim5_mavlink_to_stick_inversion_overflows :
    mavlink_to_stick (-32768) true = 32768 ∧
    ¬(mavlink_to_stick (-32768) true ≤ 32767) := by
  constructor <;> decide

/-! ## C10 — `crsf_to_stick` never produces `i16::MIN` -/

/-- C10: for every `u16` channel value and inversion flag,
`crsf_to_stick` stays within `[-32767, 32767]`; in particular `-32768`
is never produced, so the inversion negation cannot overflow. -/
theorem claim10_crsf_to_stick_range (val : Nat) (invert : Bool)
    (hval : val < 65536) :
    -32767 ≤ crsf_to_stick val invert ∧ crsf_to_stick val invert ≤ 32767 := by
  simp only [crsf_to_stick, CRSF_CENTER, Nat.cast_ofNat]
  rcases Nat.lt_or_ge val 992 with h | h
  · -- below center: `centered = -(992 - val)`, magnitude at most 992
    have hc : (val : Int) - 992 = -(((992 - val : Nat) : Int)) := by
      push_cast [Nat.cast_sub (le_of_lt h)]
      ring
    rw [hc]
    have hdiv : Int.tdiv (-(((992 - val : Nat) : Int)) * 32767) 992 =
        -(((992 - val) * 32767 / 992 : Nat) : Int) := by
      rw [neg_mul, Int.neg_tdiv]
      norm_cast
    rw [hdiv]
    have hq : (992 - val) * 32767 / 992 ≤ 32767 := by
      calc (992 - val) * 32767 / 992 ≤ 992 * 32767 / 992 :=
            Nat.div_le_div_right (Nat.mul_le_mul_right _ (by omega))
        _ = 32767 := by norm_num
    unfold i32_clamp
    cases invert <;> simp only [Bool.false_eq_true, if_true, if_false] <;>
      split_ifs <;> omega
  · -- at or above center: `centered = val - 992 ≥ 0`
    have hc : (val : Int) - 992 = ((val - 992 : Nat) : Int) := by
      push_cast [Nat.cast_sub h]
      ring
    rw [hc]
    have hdiv : Int.tdiv (((val - 992 : Nat) : Int) * 32767) 992 =
        (((val - 992) * 32767 / 992 : Nat) : Int) := by
      norm_cast
    rw [hdiv]
    have hq : (0 : Int) ≤ (((val - 992) * 32767 / 992 : Nat) : Int) :=
      Int.natCast_nonneg _
    unfold i32_clamp
    cases invert <;> simp only [Bool.false_eq_true, if_true, if_false] <;>
      split_ifs <;> omega

/-- Witness for C10 at the minimum channel value: `crsf_to_stick 0
false` is in range (it is in fact exactly `-32767`). -/
theorem claim10_crsf_to_stick_range_witness :
    (0 : Nat) < 65536 ∧
    (-32767 ≤ crsf_to_stick 0 false ∧ crsf_to_stick 0 false ≤ 32767) :=
  ⟨by decide, claim10_crsf_to_stick_range 0 false (by decide)⟩

/-! ## Decimal formatting/parsing lemmas

These connect `writeDigitsBE` (the serializer's digit emission) with
`decimal_accum_loop` (the parser's digit accumulation). -/

theorem decDigitsLE_zero : decDigitsLE 0 = [] := by
  rw [decDigitsLE]
  simp

theorem decDigitsLE_cons {n : Nat} (h : n ≠ 0) :
    decDigitsLE n = n % 10 :: decDigitsLE (n / 10) := by
  rw [decDigitsLE]
  simp [h]

theorem decDigitsLE_digit_lt {n : Nat} : ∀ d ∈ decDigitsLE n, d < 10 := by
  induction n using Nat.strong_induction_on with
  | _ n ih =>
    by_cases h : n = 0
    · subst h; rw [decDigitsLE_zero]; intro d hd; cases hd
    · rw [decDigitsLE_cons h]
      intro d hd
      rcases List.mem_cons.mp hd with h1 | h2
      · subst h1; exact Nat.mod_lt _ (by omega)
      · exact ih (n / 10) (Nat.div_lt_self (Nat.pos_of_ne_zero h) (by omega)) d h2

theorem writeDigitsBE_zero : writeDigitsBE 0 = [] := by
  simp [writeDigitsBE, decDigitsLE_zero]

theorem writeDigitsBE_concat {n : Nat} (h : n ≠ 0) :
    writeDigitsBE n = writeDigitsBE (n / 10) ++ [48 + n % 10] := by
  unfold writeDigitsBE
  rw [decDigitsLE_cons h]
  simp

theorem writeDigitsBE_ne_nil {n : Nat} (h : n ≠ 0) : writeDigitsBE n ≠ [] := by
  rw [writeDigitsBE_concat h]
  simp

theorem writeDigitsBE_mem {n : Nat} : ∀ b ∈ writeDigitsBE n, 48 ≤ b ∧ b ≤ 57 := by
  intro b hb
  unfold writeDigitsBE at hb
  rcases List.mem_map.mp hb with ⟨d, hd, rfl⟩
  have := decDigitsLE_digit_lt d (List.mem_reverse.mp hd)
  omega

theorem writeDigitsBE_length {n : Nat} :
    (writeDigitsBE n).length = (decDigitsLE n).length := by
  simp [writeDigitsBE]

theorem decimal_accum_loop_append (M : Nat) (xs ys : List Nat) (v : Nat) :
    decimal_accum_loop M (xs ++ ys) v =
      match decimal_accum_loop M xs v with
      | .ok w => decimal_accum_loop M ys w
      | .error e => .error e := by
  induction xs generalizing v with
  | nil => simp [decimal_accum_loop]
  | cons b rest ih =>
    simp only [List.cons_append, decimal_accum_loop]
    split_ifs <;> simp [ih]

theorem decimal_accum_loop_append_ok {M : Nat} (xs ys : List Nat) {v w : Nat}
    (hxs : decimal_accum_loop M xs v = .ok w) :
    decimal_accum_loop M (xs ++ ys) v = decimal_accum_loop M ys w := by
  rw [decimal_accum_loop_append, hxs]

theorem decimal_accum_loop_append_error {M : Nat} (xs ys : List Nat) {v : Nat}
    {e : InputError} (hxs : decimal_accum_loop M xs v = .error e) :
    decimal_accum_loop M (xs ++ ys) v = .error e := by
  rw [decimal_accum_loop_append, hxs]

theorem decimal_accum_loop_single (M b v : Nat) (h1 : 48 ≤ b) (h2 : b ≤ 57) :
    decimal_accum_loop M [b] v =
      if v * 10 + (b - 48) ≤ M then .ok (v * 10 + (b - 48)) else .error .Parse := by
  simp only [decimal_accum_loop, if_pos (⟨h1, h2⟩ : 48 ≤ b ∧ b ≤ 57)]

theorem decimal_accum_loop_writeDigitsBE (M n v : Nat)
    (h : v * 10 ^ (decDigitsLE n).length + n ≤ M) :
    decimal_accum_loop M (writeDigitsBE n) v =
      .ok (v * 10 ^ (decDigitsLE n).length + n) := by
  induction n using Nat.strong_induction_on generalizing v with
  | _ n ih =>
    by_cases h0 : n = 0
    · subst h0
      simp [writeDigitsBE_zero, decDigitsLE_zero, decimal_accum_loop]
    · have hlen : (decDigitsLE n).length = (decDigitsLE (n / 10)).length + 1 := by
        rw [decDigitsLE_cons h0]; simp
      have hK : 1 ≤ 10 ^ (decDigitsLE (n / 10)).length := Nat.one_le_pow _ _ (by omega)
      have hdivmod : n / 10 * 10 + n % 10 = n := by omega
      have hmod : n % 10 < 10 := Nat.mod_lt _ (by omega)
      rw [hlen] at h ⊢
      rw [pow_succ, ← mul_assoc] at h ⊢
      have hbound : v * 10 ^ (decDigitsLE (n / 10)).length + n / 10 ≤ M := by
        refine le_trans (Nat.add_le_add ?_ (Nat.div_le_self n 10)) h
        exact Nat.le_mul_of_pos_right _ (by omega)
      have hmid := ih (n / 10) (Nat.div_lt_self (Nat.pos_of_ne_zero h0) (by omega)) v hbound
      rw [writeDigitsBE_concat h0, decimal_accum_loop_append_ok _ _ hmid,
        decimal_accum_loop_single M (48 + n % 10) _ (by omega) (by omega)]
      have heq : (v * 10 ^ (decDigitsLE (n / 10)).length + n / 10) * 10 +
          (48 + n % 10 - 48) = v * 10 ^ (decDigitsLE (n / 10)).length * 10 + n := by
        have h48 : 48 + n % 10 - 48 = n % 10 := by omega
        calc (v * 10 ^ (decDigitsLE (n / 10)).length + n / 10) * 10 +
              (48 + n % 10 - 48)
            = v * 10 ^ (decDigitsLE (n / 10)).length * 10 +
              (n / 10 * 10 + n % 10) := by rw [h48]; ring
          _ = v * 10 ^ (decDigitsLE (n / 10)).length * 10 + n := by rw [hdivmod]
      rw [heq, if_pos h]

theorem decimal_accum_loop_writeDigitsBE_ok {M n v w : Nat}
    (h : decimal_accum_loop M (writeDigitsBE n) v = .ok w) :
    w = v * 10 ^ (decDigitsLE n).length + n := by
  induction n using Nat.strong_induction_on generalizing v w with
  | _ n ih =>
    by_cases h0 : n = 0
    · subst h0
      simp only [writeDigitsBE_zero, decDigitsLE_zero, decimal_accum_loop,
        Except.ok.injEq, List.length_nil, pow_zero, mul_one, Nat.add_zero] at h ⊢
      omega
    · have hlen : (decDigitsLE n).length = (decDigitsLE (n / 10)).length + 1 := by
        rw [decDigitsLE_cons h0]; simp
      have hdivmod : n / 10 * 10 + n % 10 = n := by omega
      rw [writeDigitsBE_concat h0] at h
      rcases hmid : decimal_accum_loop M (writeDigitsBE (n / 10)) v with e | u
      · rw [decimal_accum_loop_append_error _ _ hmid] at h; cases h
      · rw [decimal_accum_loop_append_ok _ _ hmid,
          decimal_accum_loop_single M (48 + n % 10) u (by omega) (by omega)] at h
        have hu := ih (n / 10) (Nat.div_lt_self (Nat.pos_of_ne_zero h0) (by omega)) hmid
        split_ifs at h with h1
        · cases h
          rw [hlen, pow_succ, hu]
          calc (v * 10 ^ (decDigitsLE (n / 10)).length + n / 10) * 10 +
                (48 + n % 10 - 48)
              = v * (10 ^ (decDigitsLE (n / 10)).length * 10) +
                (n / 10 * 10 + (48 + n % 10 - 48)) := by ring
            _ = v * (10 ^ (decDigitsLE (n / 10)).length * 10) + n := by omega

theorem decimal_accum_loop_error {M : Nat} {l : List Nat} {v : Nat} {e : InputError}
    (h : decimal_accum_loop M l v = .error e) : e = .Parse := by
  induction l generalizing v with
  | nil => simp [decimal_accum_loop] at h
  | cons b rest ih =>
    simp only [decimal_accum_loop] at h
    split_ifs at h with h1 h2
    · exact ih h
    · cases h; rfl
    · cases h; rfl

/-- Leading spaces do not occur in digit strings, so trimming is the
identity on them. -/
theorem trim_leading_whitespace_of_head {l : List Nat}
    (h : ∀ b ∈ l.head?, b ≠ 32) : trim_leading_whitespace l = l := by
  cases l with
  | nil => rfl
  | cons b rest =>
    have : b ≠ 32 := h b rfl
    simp [trim_leading_whitespace, List.dropWhile, this]

/-! ## Monadic plumbing for `Except` -/

theorem except_bind_ok {ε α β : Type} (a : α) (f : α → Except ε β) :
    (Except.ok a : Except ε α) >>= f = f a := rfl

theorem except_bind_error {ε α β : Type} (e : ε) (f : α → Except ε β) :
    (Except.error e : Except ε α) >>= f = .error e := rfl

theorem except_map_ok {ε α β : Type} (a : α) (f : α → β) :
    (Except.ok a : Except ε α).map f = .ok (f a) := rfl

theorem except_map_error {ε α β : Type} (e : ε) (f : α → β) :
    (Except.error e : Except ε α).map f = .error e := rfl

/-! ## Hex formatting/parsing lemmas -/

theorem hex_digit_hexChar {d : Nat} (h : d < 16) :
    hex_digit (hexChar d) = .ok d := by
  interval_cases d <;> decide

theorem hexChar_range {d : Nat} (h : d < 16) :
    (48 ≤ hexChar d ∧ hexChar d ≤ 57) ∨ (65 ≤ hexChar d ∧ hexChar d ≤ 70) := by
  interval_cases d <;> decide

theorem parse_hex_u16_write_hex_u16 {b : Nat} (h : b < 65536) :
    parse_hex_u16 (write_hex_u16 b) = .ok b := by
  have h3 : b / 4096 % 16 < 16 := Nat.mod_lt _ (by omega)
  have h2 : b / 256 % 16 < 16 := Nat.mod_lt _ (by omega)
  have h1 : b / 16 % 16 < 16 := Nat.mod_lt _ (by omega)
  have h0 : b % 16 < 16 := Nat.mod_lt _ (by omega)
  simp only [parse_hex_u16, write_hex_u16, List.length_cons, List.length_nil,
    if_pos, hex_accum_loop, hex_digit_hexChar h3, hex_digit_hexChar h2,
    hex_digit_hexChar h1, hex_digit_hexChar h0, except_bind_ok]
  congr 1
  omega

theorem parse_hex_u8_write_hex_u8 {c : Nat} (h : c < 256) :
    parse_hex_u8 (write_hex_u8 c) = .ok c := by
  have h1 : c / 16 < 16 := by omega
  have h0 : c % 16 < 16 := Nat.mod_lt _ (by omega)
  simp only [parse_hex_u8, write_hex_u8, hex_digit_hexChar h1,
    hex_digit_hexChar h0, except_bind_ok]
  congr 1
  omega

/-! ## Decimal round-trips for `i16` and `u8` -/

theorem parse_u8_write_u8 {t : Nat} (h : t < 256) :
    parse_u8 (write_u8 t) = .ok t := by
  by_cases h0 : t = 0
  · subst h0; decide
  · rw [write_u8, if_neg h0]
    rcases hW : writeDigitsBE t with _ | ⟨b, rest⟩
    · exact absurd hW (writeDigitsBE_ne_nil h0)
    · have hb : 48 ≤ b ∧ b ≤ 57 := writeDigitsBE_mem b (by rw [hW]; simp)
      have htrim : trim_leading_whitespace (b :: rest) = b :: rest :=
        trim_leading_whitespace_of_head (by simp; omega)
      have hloop : decimal_accum_loop 65535 (writeDigitsBE t) 0 = .ok t := by
        have := decimal_accum_loop_writeDigitsBE 65535 t 0 (by simpa using by omega)
        simpa using this
      simp only [parse_u8, htrim]
      rw [if_neg (show ¬(b :: rest = []) from by simp), ← hW, hloop]
      show (if t > 255 then Except.error InputError.Parse else Except.ok t) =
        Except.ok t
      rw [if_neg (show ¬(t > 255) from by omega)]

theorem parse_i16_digits_pos {n : Nat} (h0 : n ≠ 0) (h : n ≤ 32767) :
    parse_i16 (writeDigitsBE n) = .ok (n : Int) := by
  rcases hW : writeDigitsBE n with _ | ⟨b, rest⟩
  · exact absurd hW (writeDigitsBE_ne_nil h0)
  · have hb : 48 ≤ b ∧ b ≤ 57 := writeDigitsBE_mem b (by rw [hW]; simp)
    have htrim : trim_leading_whitespace (b :: rest) = b :: rest :=
      trim_leading_whitespace_of_head (by simp; omega)
    have hloop : decimal_accum_loop 2147483647 (writeDigitsBE n) 0 = .ok n := by
      have := decimal_accum_loop_writeDigitsBE 2147483647 n 0 (by simpa using by omega)
      simpa using this
    simp only [parse_i16, htrim]
    rw [if_neg (show ¬b = 45 from by omega), if_neg (show ¬b = 43 from by omega)]
    unfold parse_i16_tail
    rw [if_neg (show ¬(b :: rest = []) from by simp), ← hW, hloop]
    show (if ((n : Int)) < -32768 ∨ ((n : Int)) > 32767 then
        Except.error InputError.Parse else Except.ok ((n : Int))) = Except.ok (n : Int)
    rw [if_neg (show ¬(((n : Int)) < -32768 ∨ ((n : Int)) > 32767) from by omega)]

theorem parse_i16_digits_neg {n : Nat} (h0 : n ≠ 0) (h : n ≤ 32768) :
    parse_i16 (45 :: writeDigitsBE n) = .ok (-(n : Int)) := by
  have hne := writeDigitsBE_ne_nil h0
  have htrim : trim_leading_whitespace (45 :: writeDigitsBE n) =
      45 :: writeDigitsBE n :=
    trim_leading_whitespace_of_head (by simp)
  have hloop : decimal_accum_loop 2147483647 (writeDigitsBE n) 0 = .ok n := by
    have := decimal_accum_loop_writeDigitsBE 2147483647 n 0 (by simpa using by omega)
    simpa using this
  simp only [parse_i16, htrim]
  rw [if_pos trivial]
  unfold parse_i16_tail
  rw [if_neg hne, hloop]
  show (if (-(n : Int)) < -32768 ∨ (-(n : Int)) > 32767 then
      Except.error InputError.Parse else Except.ok (-(n : Int))) = Except.ok (-(n : Int))
  rw [if_neg (show ¬((-(n : Int)) < -32768 ∨ (-(n : Int)) > 32767) from by omega)]

theorem write_i16_neg_eq {v : Int} (hneg : v < 0) (hlo : -32768 ≤ v) :
    write_i16 v = 45 :: writeDigitsBE (-v).toNat := by
  rw [write_i16, if_neg (by omega), if_pos hneg]
  by_cases hmin : v = -32768
  · subst hmin
    have : ((32768 : Int)).toNat = 32768 := rfl
    rw [if_pos rfl]
    show _ = 45 :: writeDigitsBE 32768
    have h32768 : writeDigitsBE 32768 = [51, 50, 55, 54, 56] := by
      simp [writeDigitsBE, decDigitsLE]
    rw [h32768]
  · rw [if_neg hmin]

theorem parse_i16_write_i16 {v : Int} (hlo : -32768 ≤ v) (hhi : v ≤ 32767) :
    parse_i16 (write_i16 v) = .ok v := by
  rcases lt_trichotomy v 0 with hneg | hzero | hpos
  · rw [write_i16_neg_eq hneg hlo]
    have h0 : (-v).toNat ≠ 0 := by omega
    have h1 : (-v).toNat ≤ 32768 := by omega
    rw [parse_i16_digits_neg h0 h1]
    congr 1
    omega
  · subst hzero; decide
  · have h0 : v.toNat ≠ 0 := by omega
    have h1 : v.toNat ≤ 32767 := by omega
    rw [write_i16, if_neg (by omega), if_neg (by omega),
      parse_i16_digits_pos h0 h1]
    congr 1
    omega

/-! ## Field-level numeric rejection: i16 overflow and underflow, u8 overflow -/

/-- Every decimal digit string denoting `n > 32767` makes `parse_i16`
fail with `InputError::Parse`, via the `i32` checked arithmetic or the
`i16` range check. -/
theorem parse_i16_digits_overflow {n : Nat} (hn : 32767 < n) :
    parse_i16 (writeDigitsBE n) = .error .Parse := by
  have h0 : n ≠ 0 := by omega
  rcases hW : writeDigitsBE n with _ | ⟨b, rest⟩
  · exact absurd hW (writeDigitsBE_ne_nil h0)
  · have hb : 48 ≤ b ∧ b ≤ 57 := writeDigitsBE_mem b (by rw [hW]; simp)
    have htrim : trim_leading_whitespace (b :: rest) = b :: rest :=
      trim_leading_whitespace_of_head (by simp; omega)
    simp only [parse_i16, htrim]
    rw [if_neg (show ¬b = 45 from by omega), if_neg (show ¬b = 43 from by omega)]
    unfold parse_i16_tail
    rw [if_neg (show ¬(b :: rest = []) from by simp)]
    rcases hres : decimal_accum_loop 2147483647 (b :: rest) 0 with e | v
    · show (Except.error e : Except InputError Int) = .error .Parse
      rw [decimal_accum_loop_error hres]
    · have hv : v = 0 * 10 ^ (decDigitsLE n).length + n :=
        decimal_accum_loop_writeDigitsBE_ok (by rw [hW]; exact hres)
      have hv' : v = n := by simpa using hv
      show (if ((v : Int)) < -32768 ∨ ((v : Int)) > 32767 then
          Except.error InputError.Parse else Except.ok ((v : Int))) = .error .Parse
      rw [if_pos (by right; omega)]

/-- Every negated digit string denoting `-n < -32768` makes `parse_i16`
fail with `InputError::Parse` (underflow below `i16::MIN`). -/
theorem parse_i16_digits_underflow {n : Nat} (hn : 32768 < n) :
    parse_i16 (45 :: writeDigitsBE n) = .error .Parse := by
  have h0 : n ≠ 0 := by omega
  have hne := writeDigitsBE_ne_nil h0
  have htrim : trim_leading_whitespace (45 :: writeDigitsBE n) =
      45 :: writeDigitsBE n :=
    trim_leading_whitespace_of_head (by simp)
  simp only [parse_i16, htrim]
  rw [if_pos trivial]
  unfold parse_i16_tail
  rw [if_neg hne]
  rcases hres : decimal_accum_loop 2147483647 (writeDigitsBE n) 0 with e | v
  · show (Except.error e : Except InputError Int) = .error .Parse
    rw [decimal_accum_loop_error hres]
  · have hv : v = 0 * 10 ^ (decDigitsLE n).length + n :=
      decimal_accum_loop_writeDigitsBE_ok hres
    have hv' : v = n := by simpa using hv
    show (if (-(v : Int)) < -32768 ∨ (-(v : Int)) > 32767 then
        Except.error InputError.Parse else Except.ok (-(v : Int))) = .error .Parse
    rw [if_pos (by left; omega)]

/-- Every decimal digit string denoting `n > 255` makes `parse_u8`
fail with `InputError::Parse`, via the `u16` checked arithmetic or the
`u8` range check. -/
theorem parse_u8_digits_overflow {n : Nat} (hn : 255 < n) :
    parse_u8 (writeDigitsBE n) = .error .Parse := by
  have h0 : n ≠ 0 := by omega
  rcases hW : writeDigitsBE n with _ | ⟨b, rest⟩
  · exact absurd hW (writeDigitsBE_ne_nil h0)
  · have hb : 48 ≤ b ∧ b ≤ 57 := writeDigitsBE_mem b (by rw [hW]; simp)
    have htrim : trim_leading_whitespace (b :: rest) = b :: rest :=
      trim_leading_whitespace_of_head (by simp; omega)
    simp only [parse_u8, htrim]
    rw [if_neg (show ¬(b :: rest = []) from by simp)]
    rcases hres : decimal_accum_loop 65535 (b :: rest) 0 with e | v
    · show (Except.error e : Except InputError Nat) = .error .Parse
      rw [decimal_accum_loop_error hres]
    · have hv : v = 0 * 10 ^ (decDigitsLE n).length + n :=
        decimal_accum_loop_writeDigitsBE_ok (by rw [hW]; exact hres)
      have hv' : v = n := by simpa using hv
      show (if v > 255 then Except.error InputError.Parse else Except.ok v) =
        .error .Parse
      rw [if_pos (by omega)]

/-! ## Structural lemmas: splitting, separator search, line endings -/

theorem splitColon_no_colon {l : List Nat} (h : 58 ∉ l) : splitColon l = [l] := by
  induction l with
  | nil => rfl
  | cons b rest ih =>
    have hb : b ≠ 58 := fun hb => h (hb ▸ List.mem_cons_self b rest)
    have hr : 58 ∉ rest := fun hr => h (List.mem_cons_of_mem b hr)
    simp only [splitColon, if_neg hb, ih hr]

theorem splitColon_append {a rest : List Nat} (h : 58 ∉ a) :
    splitColon (a ++ 58 :: rest) = a :: splitColon rest := by
  induction a with
  | nil => simp [splitColon]
  | cons b a' ih =>
    have hb : b ≠ 58 := fun hb => h (hb ▸ List.mem_cons_self b a')
    have ha : 58 ∉ a' := fun ha => h (List.mem_cons_of_mem b ha)
    simp only [List.cons_append, splitColon, if_neg hb]
    rw [show List.append a' (58 :: rest) = a' ++ 58 :: rest from rfl, ih ha]

theorem positionColon_of_not_mem {l : List Nat} (h : 58 ∉ l) :
    positionColon l = none := by
  induction l with
  | nil => rfl
  | cons b rest ih =>
    have hb : b ≠ 58 := fun hb => h (hb ▸ List.mem_cons_self b rest)
    have hr : 58 ∉ rest := fun hr => h (List.mem_cons_of_mem b hr)
    simp [positionColon, hb, ih hr]

theorem positionColon_append {a rest : List Nat} (h : 58 ∉ a) :
    positionColon (a ++ 58 :: rest) = some a.length := by
  induction a with
  | nil => simp [positionColon]
  | cons b a' ih =>
    have hb : b ≠ 58 := fun hb => h (hb ▸ List.mem_cons_self b a')
    have ha : 58 ∉ a' := fun ha => h (List.mem_cons_of_mem b ha)
    simp [positionColon, hb, ih ha]

theorem rpositionStar_of_not_mem {l : List Nat} (h : 42 ∉ l) :
    rpositionStar l = none := by
  induction l with
  | nil => rfl
  | cons b rest ih =>
    have hb : b ≠ 42 := fun hb => h (hb ▸ List.mem_cons_self b rest)
    have hr : 42 ∉ rest := fun hr => h (List.mem_cons_of_mem b hr)
    simp [rpositionStar, ih hr, hb]

theorem rpositionStar_append {l1 l2 : List Nat} (h : 42 ∉ l2) :
    rpositionStar (l1 ++ 42 :: l2) = some l1.length := by
  induction l1 with
  | nil =>
    simp [rpositionStar, rpositionStar_of_not_mem h]
  | cons b l1' ih =>
    simp [rpositionStar, ih]

theorem strip_line_ending_concat {m : List Nat}
    (h13 : m.getLast? ≠ some 13) :
    strip_line_ending (m ++ [10]) = m := by
  simp only [strip_line_ending, List.getLast?_concat, List.dropLast_concat,
    eq_self_iff_true, if_true]
  rw [if_neg h13]

/-! ## Character classes of serialized payload bytes -/

theorem hex_digit_ok_facts {c d : Nat} (h : hex_digit c = .ok d) :
    c ≠ 42 ∧ c ≠ 58 ∧ c ≠ 10 ∧ c ≠ 13 ∧ c < 256 ∧ d < 16 := by
  unfold hex_digit at h
  split_ifs at h with h1 h2 h3 <;> cases h <;> omega

theorem hexChar_facts {d : Nat} (h : d < 16) :
    hexChar d ≠ 42 ∧ hexChar d ≠ 58 ∧ hexChar d ≠ 10 ∧
      hexChar d ≠ 13 ∧ hexChar d < 256 := by
  rcases hexChar_range h with ⟨h1, h2⟩ | ⟨h1, h2⟩ <;> omega

theorem write_hex_u16_mem {b : Nat} :
    ∀ x ∈ write_hex_u16 b, (48 ≤ x ∧ x ≤ 57) ∨ (65 ≤ x ∧ x ≤ 70) := by
  intro x hx
  have m3 : b / 4096 % 16 < 16 := Nat.mod_lt _ (by omega)
  have m2 : b / 256 % 16 < 16 := Nat.mod_lt _ (by omega)
  have m1 : b / 16 % 16 < 16 := Nat.mod_lt _ (by omega)
  have m0 : b % 16 < 16 := Nat.mod_lt _ (by omega)
  simp only [write_hex_u16, List.mem_cons, List.not_mem_nil, or_false] at hx
  rcases hx with rfl | rfl | rfl | rfl
  · exact hexChar_range m3
  · exact hexChar_range m2
  · exact hexChar_range m1
  · exact hexChar_range m0

theorem write_hex_u8_mem {c : Nat} (hc : c < 256) :
    ∀ x ∈ write_hex_u8 c, (48 ≤ x ∧ x ≤ 57) ∨ (65 ≤ x ∧ x ≤ 70) := by
  intro x hx
  have m1 : c / 16 < 16 := by omega
  have m0 : c % 16 < 16 := Nat.mod_lt _ (by omega)
  simp only [write_hex_u8, List.mem_cons, List.not_mem_nil, or_false] at hx
  rcases hx with rfl | rfl
  · exact hexChar_range m1
  · exact hexChar_range m0

theorem write_u8_mem {t : Nat} : ∀ x ∈ write_u8 t, 48 ≤ x ∧ x ≤ 57 := by
  intro x hx
  unfold write_u8 at hx
  split_ifs at hx with h0
  · simp at hx; omega
  · exact writeDigitsBE_mem x hx

theorem write_i16_mem {v : Int} :
    ∀ x ∈ write_i16 v, (48 ≤ x ∧ x ≤ 57) ∨ x = 45 := by
  intro x hx
  unfold write_i16 at hx
  split_ifs at hx with h0 hneg hmin
  · simp at hx; omega
  · simp only [List.mem_cons, List.not_mem_nil, or_false] at hx
    rcases hx with rfl | rfl | rfl | rfl | rfl | rfl <;> omega
  · simp only [List.mem_cons] at hx
    rcases hx with rfl | hx
    · right; rfl
    · exact Or.inl (writeDigitsBE_mem x hx)
  · exact Or.inl (writeDigitsBE_mem x hx)

theorem write_u8_ne_nil {t : Nat} : write_u8 t ≠ [] := by
  unfold write_u8
  split_ifs with h0
  · simp
  · exact writeDigitsBE_ne_nil h0

theorem write_i16_ne_nil {v : Int} : write_i16 v ≠ [] := by
  unfold write_i16
  split_ifs with h0 hneg hmin
  · simp
  · simp
  · simp
  · refine writeDigitsBE_ne_nil ?_
    omega

theorem calculate_checksum_lt {l : List Nat} (h : ∀ x ∈ l, x < 256) :
    calculate_checksum l < 256 := by
  unfold calculate_checksum
  have gen : ∀ (l : List Nat), (∀ x ∈ l, x < 256) → ∀ acc, acc < 256 →
      l.foldl (fun acc b => acc ^^^ b) acc < 256 := by
    intro l
    induction l with
    | nil => intro _ acc hacc; simpa using hacc
    | cons b rest ih =>
      intro hmem acc hacc
      simp only [List.foldl_cons]
      refine ih (fun x hx => hmem x (List.mem_cons_of_mem b hx)) _ ?_
      have hb : b < 256 := hmem b (List.mem_cons_self b rest)
      have : (256 : Nat) = 2 ^ 8 := by norm_num
      rw [this] at hacc hb ⊢
      exact Nat.xor_lt_two_pow hacc hb
  exact gen l h 0 (by omega)

/-! ## Checksum extraction on structurally well-formed lines

A line `pfx :: payload ++ [b'*', c1, c2]` with hex checksum characters
and no `b'*'` in the checksum region reaches the checksum comparison;
the payload slice and the received checksum value are recovered
exactly. -/

theorem extract_verified_payload_structured
    {pfx : Nat} {payload : List Nat} {c1 c2 d1 d2 min_len : Nat}
    (hlen : min_len ≤ payload.length + 4)
    (h1 : hex_digit c1 = .ok d1) (h2 : hex_digit c2 = .ok d2) :
    extract_verified_payload (pfx :: payload ++ 42 :: [c1, c2]) min_len =
      if calculate_checksum payload = d1 * 16 + d2 then .ok payload
      else .error .Checksum := by
  have hc1 := hex_digit_ok_facts h1
  have hc2 := hex_digit_ok_facts h2
  have hnostar : 42 ∉ [c1, c2] := by
    simp only [List.mem_cons, List.not_mem_nil, or_false]
    push_neg
    exact ⟨fun hx => hc1.1 hx.symm, fun hx => hc2.1 hx.symm⟩
  have hlength : (pfx :: payload ++ 42 :: [c1, c2]).length = payload.length + 4 := by
    simp
  have hrpos : rpositionStar (pfx :: payload ++ 42 :: [c1, c2]) =
      some (payload.length + 1) := by
    have := @rpositionStar_append (pfx :: payload) [c1, c2] hnostar
    simpa using this
  have hslice : ((pfx :: payload ++ 42 :: [c1, c2]).drop 1).take
      (payload.length + 1 - 1) = payload := by
    simp only [List.drop_succ_cons, List.drop_zero, Nat.add_sub_cancel]
    exact List.take_left payload _
  have hcsum : (pfx :: payload ++ 42 :: [c1, c2]).drop (payload.length + 1 + 1) =
      [c1, c2] := by
    have hre : pfx :: payload ++ 42 :: [c1, c2] =
        (pfx :: payload ++ [42]) ++ [c1, c2] := by simp
    have hlen2 : (pfx :: payload ++ [42]).length = payload.length + 2 := by simp
    rw [hre, show payload.length + 1 + 1 = (pfx :: payload ++ [42]).length from by
      rw [hlen2]]
    exact List.drop_left _ _
  have hparse : parse_hex_u8 [c1, c2] = .ok (d1 * 16 + d2) := by
    simp only [parse_hex_u8, h1, h2, except_bind_ok]
  unfold extract_verified_payload
  rw [hlength, if_neg (show ¬(payload.length + 4 < min_len) from by omega)]
  split
  · rename_i heq
    rw [hrpos] at heq
    cases heq
  · rename_i p heq
    rw [hrpos] at heq
    injection heq with hp
    subst hp
    rw [if_neg (show ¬(payload.length + 1 + 3 > payload.length + 4) from by omega)]
    simp only [hslice, hcsum, hparse]
    by_cases hck : calculate_checksum payload = d1 * 16 + d2
    · rw [if_neg (show ¬(calculate_checksum payload ≠ d1 * 16 + d2) from by omega),
        if_pos hck]
    · rw [if_pos hck, if_neg hck]

/-! ## Full-state round-trip -/

theorem splitColon_serialize_full_state_payload (s : GamepadState) :
    splitColon (serialize_full_state_payload s) =
      [write_hex_u16 s.buttons.raw, write_i16 s.left_stick.x,
       write_i16 s.left_stick.y, write_i16 s.right_stick.x,
       write_i16 s.right_stick.y, write_u8 s.left_trigger,
       write_u8 s.right_trigger] := by
  have hB : 58 ∉ write_hex_u16 s.buttons.raw := fun hx => by
    rcases write_hex_u16_mem _ hx with h | h <;> omega
  have hI : ∀ v : Int, 58 ∉ write_i16 v := fun v hx => by
    rcases write_i16_mem _ hx with h | h <;> omega
  have hU : ∀ t : Nat, 58 ∉ write_u8 t := fun t hx => by
    have := write_u8_mem _ hx; omega
  unfold serialize_full_state_payload
  simp only [List.append_assoc, List.singleton_append, List.cons_append,
    List.nil_append]
  rw [splitColon_append hB, splitColon_append (hI _), splitColon_append (hI _),
    splitColon_append (hI _), splitColon_append (hI _), splitColon_append (hU _),
    splitColon_no_colon (hU _)]

theorem serialize_full_state_payload_length (s : GamepadState) :
    16 ≤ (serialize_full_state_payload s).length := by
  have l1 : (write_hex_u16 s.buttons.raw).length = 4 := by simp [write_hex_u16]
  have l2 : ∀ v : Int, 1 ≤ (write_i16 v).length := fun v =>
    List.length_pos.mpr write_i16_ne_nil
  have l3 : ∀ t : Nat, 1 ≤ (write_u8 t).length := fun t =>
    List.length_pos.mpr write_u8_ne_nil
  unfold serialize_full_state_payload
  simp only [List.length_append, List.length_cons, List.length_nil, l1]
  have := l2 s.left_stick.x
  have := l2 s.left_stick.y
  have := l2 s.right_stick.x
  have := l2 s.right_stick.y
  have := l3 s.left_trigger
  have := l3 s.right_trigger
  omega

theorem mem_append_lt {l1 l2 : List Nat} (h1 : ∀ x ∈ l1, x < 256)
    (h2 : ∀ x ∈ l2, x < 256) : ∀ x ∈ l1 ++ l2, x < 256 := by
  intro x hx
  rcases List.mem_append.mp hx with h | h
  · exact h1 x h
  · exact h2 x h

theorem serialize_full_state_payload_lt (s : GamepadState) :
    ∀ x ∈ serialize_full_state_payload s, x < 256 := by
  have hsep : ∀ x ∈ [(58 : Nat)], x < 256 := by intro x hx; simp at hx; omega
  have hhex : ∀ x ∈ write_hex_u16 s.buttons.raw, x < 256 := fun x hx => by
    rcases write_hex_u16_mem _ hx with h | h <;> omega
  have hi : ∀ (v : Int), ∀ x ∈ write_i16 v, x < 256 := fun v x hx => by
    rcases write_i16_mem _ hx with h | h <;> omega
  have hu : ∀ (t : Nat), ∀ x ∈ write_u8 t, x < 256 := fun t x hx => by
    have := write_u8_mem _ hx; omega
  unfold serialize_full_state_payload
  repeat' apply mem_append_lt
  exacts [hhex, hsep, hi _, hsep, hi _, hsep, hi _, hsep, hi _, hsep, hu _,
    hsep, hu _]

theorem parse_full_state_serialized (s : GamepadState) (h : WfState s) :
    parse_full_state (71 :: serialize_full_state_payload s ++
      42 :: write_hex_u8 (calculate_checksum (serialize_full_state_payload s))) =
      .ok s := by
  obtain ⟨hbtn, hlx1, hlx2, hly1, hly2, hrx1, hrx2, hry1, hry2, hlt, hrt⟩ := h
  have hc : calculate_checksum (serialize_full_state_payload s) < 256 :=
    calculate_checksum_lt (serialize_full_state_payload_lt s)
  have h1 : hex_digit (hexChar (calculate_checksum (serialize_full_state_payload s) / 16)) =
      .ok (calculate_checksum (serialize_full_state_payload s) / 16) :=
    hex_digit_hexChar (by omega)
  have h2 : hex_digit (hexChar (calculate_checksum (serialize_full_state_payload s) % 16)) =
      .ok (calculate_checksum (serialize_full_state_payload s) % 16) :=
    hex_digit_hexChar (Nat.mod_lt _ (by omega))
  unfold parse_full_state
  rw [if_neg (show ¬((71 : Nat) :: serialize_full_state_payload s ++
      42 :: write_hex_u8 (calculate_checksum (serialize_full_state_payload s))).head? ≠
      some 71 from by simp)]
  rw [show write_hex_u8 (calculate_checksum (serialize_full_state_payload s)) =
      [hexChar (calculate_checksum (serialize_full_state_payload s) / 16),
       hexChar (calculate_checksum (serialize_full_state_payload s) % 16)] from rfl]
  rw [extract_verified_payload_structured
    (by have := serialize_full_state_payload_length s; simp [MIN_FULL_STATE_LEN]; omega)
    h1 h2]
  rw [if_pos (by omega)]
  simp only [except_bind_ok]
  rw [splitColon_serialize_full_state_payload s]
  simp only [parse_hex_u16_write_hex_u16 hbtn,
    parse_i16_write_i16 hlx1 hlx2, parse_i16_write_i16 hly1 hly2,
    parse_i16_write_i16 hrx1 hrx2, parse_i16_write_i16 hry1 hry2,
    parse_u8_write_u8 hlt, parse_u8_write_u8 hrt, except_bind_ok]
  rfl

theorem parse_serialize_full_state (s : GamepadState) (h : WfState s) :
    parse (serialize_full_state_bytes s) = .ok s := by
  have hc : calculate_checksum (serialize_full_state_payload s) < 256 :=
    calculate_checksum_lt (serialize_full_state_payload_lt s)
  unfold parse serialize_full_state_bytes
  have hre : (71 : Nat) :: serialize_full_state_payload s ++
      42 :: write_hex_u8 (calculate_checksum (serialize_full_state_payload s)) ++ [10] =
      (71 :: serialize_full_state_payload s ++
        42 :: write_hex_u8 (calculate_checksum (serialize_full_state_payload s))) ++
        [10] := by simp
  rw [hre, strip_line_ending_concat ?_]
  · exact parse_full_state_serialized s h
  · have hlast : ((71 : Nat) :: serialize_full_state_payload s ++
        42 :: write_hex_u8 (calculate_checksum (serialize_full_state_payload s))).getLast? =
        some (hexChar (calculate_checksum (serialize_full_state_payload s) % 16)) := by
      rw [show (71 : Nat) :: serialize_full_state_payload s ++
          42 :: write_hex_u8 (calculate_checksum (serialize_full_state_payload s)) =
          (71 :: serialize_full_state_payload s ++
            [42, hexChar (calculate_checksum (serialize_full_state_payload s) / 16)]) ++
            [hexChar (calculate_checksum (serialize_full_state_payload s) % 16)] from by
        simp [write_hex_u8]]
      exact List.getLast?_concat _
    rw [hlast]
    have := (hexChar_facts (show calculate_checksum (serialize_full_state_payload s) % 16 < 16
      from Nat.mod_lt _ (by omega))).2.2.2.1
    simp [this]

/-! ## Update-message round-trip -/

theorem serialize_update_payload_length (u : GamepadFieldUpdate) :
    3 ≤ (serialize_update_payload u).length := by
  have l1 : ∀ b : Nat, 1 ≤ (write_hex_u16 b).length := by
    intro b; simp [write_hex_u16]
  have l2 : ∀ v : Int, 1 ≤ (write_i16 v).length := fun v =>
    List.length_pos.mpr write_i16_ne_nil
  have l3 : ∀ t : Nat, 1 ≤ (write_u8 t).length := fun t =>
    List.length_pos.mpr write_u8_ne_nil
  cases u with
  | Buttons b => have := l1 b.raw
                 simp only [serialize_update_payload, List.length_cons]; omega
  | LeftStickX v => have := l2 v
                    simp only [serialize_update_payload, List.length_cons]; omega
  | LeftStickY v => have := l2 v
                    simp only [serialize_update_payload, List.length_cons]; omega
  | RightStickX v => have := l2 v
                     simp only [serialize_update_payload, List.length_cons]; omega
  | RightStickY v => have := l2 v
                     simp only [serialize_update_payload, List.length_cons]; omega
  | LeftTrigger t => have := l3 t
                     simp only [serialize_update_payload, List.length_cons]; omega
  | RightTrigger t => have := l3 t
                      simp only [serialize_update_payload, List.length_cons]; omega

theorem serialize_update_payload_lt (u : GamepadFieldUpdate) :
    ∀ x ∈ serialize_update_payload u, x < 256 := by
  have hhex : ∀ (b : Nat), ∀ x ∈ write_hex_u16 b, x < 256 := fun b x hx => by
    rcases write_hex_u16_mem _ hx with h | h <;> omega
  have hi : ∀ (v : Int), ∀ x ∈ write_i16 v, x < 256 := fun v x hx => by
    rcases write_i16_mem _ hx with h | h <;> omega
  have hu : ∀ (t : Nat), ∀ x ∈ write_u8 t, x < 256 := fun t x hx => by
    have := write_u8_mem _ hx; omega
  cases u with
  | Buttons b =>
    intro x hx
    simp only [serialize_update_payload, List.mem_cons] at hx
    rcases hx with rfl | rfl | hx
    · omega
    · omega
    · exact hhex _ x hx
  | LeftStickX v =>
    intro x hx
    simp only [serialize_update_payload, List.mem_cons] at hx
    rcases hx with rfl | rfl | rfl | hx
    · omega
    · omega
    · omega
    · exact hi _ x hx
  | LeftStickY v =>
    intro x hx
    simp only [serialize_update_payload, List.mem_cons] at hx
    rcases hx with rfl | rfl | rfl | hx
    · omega
    · omega
    · omega
    · exact hi _ x hx
  | RightStickX v =>
    intro x hx
    simp only [serialize_update_payload, List.mem_cons] at hx
    rcases hx with rfl | rfl | rfl | hx
    · omega
    · omega
    · omega
    · exact hi _ x hx
  | RightStickY v =>
    intro x hx
    simp only [serialize_update_payload, List.mem_cons] at hx
    rcases hx with rfl | rfl | rfl | hx
    · omega
    · omega
    · omega
    · exact hi _ x hx
  | LeftTrigger t =>
    intro x hx
    simp only [serialize_update_payload, List.mem_cons] at hx
    rcases hx with rfl | rfl | rfl | hx
    · omega
    · omega
    · omega
    · exact hu _ x hx
  | RightTrigger t =>
    intro x hx
    simp only [serialize_update_payload, List.mem_cons] at hx
    rcases hx with rfl | rfl | rfl | hx
    · omega
    · omega
    · omega
    · exact hu _ x hx

theorem parse_update_payload_serialized (u : GamepadFieldUpdate)
    (h : WfUpdate u) :
    parse_update_payload (serialize_update_payload u) = .ok u := by
  cases u with
  | Buttons b =>
    have hb : b.raw < 65536 := h
    simp only [serialize_update_payload, parse_update_payload, positionColon]
    norm_num
    simp only [parse_hex_u16_write_hex_u16 hb, except_bind_ok]
  | LeftStickX v =>
    obtain ⟨h1, h2⟩ := (h : -32768 ≤ v ∧ v ≤ 32767)
    simp only [serialize_update_payload, parse_update_payload, positionColon]
    norm_num
    simp only [parse_i16_write_i16 h1 h2, except_bind_ok]
  | LeftStickY v =>
    obtain ⟨h1, h2⟩ := (h : -32768 ≤ v ∧ v ≤ 32767)
    simp only [serialize_update_payload, parse_update_payload, positionColon]
    norm_num
    simp only [parse_i16_write_i16 h1 h2, except_bind_ok]
  | RightStickX v =>
    obtain ⟨h1, h2⟩ := (h : -32768 ≤ v ∧ v ≤ 32767)
    simp only [serialize_update_payload, parse_update_payload, positionColon]
    norm_num
    simp only [parse_i16_write_i16 h1 h2, except_bind_ok]
  | RightStickY v =>
    obtain ⟨h1, h2⟩ := (h : -32768 ≤ v ∧ v ≤ 32767)
    simp only [serialize_update_payload, parse_update_payload, positionColon]
    norm_num
    simp only [parse_i16_write_i16 h1 h2, except_bind_ok]
  | LeftTrigger t =>
    have ht : t < 256 := h
    simp only [serialize_update_payload, parse_update_payload, positionColon]
    norm_num
    simp only [parse_u8_write_u8 ht, except_bind_ok]
  | RightTrigger t =>
    have ht : t < 256 := h
    simp only [serialize_update_payload, parse_update_payload, positionColon]
    norm_num
    simp only [parse_u8_write_u8 ht, except_bind_ok]

theorem parse_update_serialized (u : GamepadFieldUpdate) (h : WfUpdate u) :
    parse_update (85 :: serialize_update_payload u ++
      42 :: write_hex_u8 (calculate_checksum (serialize_update_payload u))) =
      .ok u := by
  have hc : calculate_checksum (serialize_update_payload u) < 256 :=
    calculate_checksum_lt (serialize_update_payload_lt u)
  have h1 : hex_digit (hexChar (calculate_checksum (serialize_update_payload u) / 16)) =
      .ok (calculate_checksum (serialize_update_payload u) / 16) :=
    hex_digit_hexChar (by omega)
  have h2 : hex_digit (hexChar (calculate_checksum (serialize_update_payload u) % 16)) =
      .ok (calculate_checksum (serialize_update_payload u) % 16) :=
    hex_digit_hexChar (Nat.mod_lt _ (by omega))
  unfold parse_update
  rw [if_neg (show ¬((85 : Nat) :: serialize_update_payload u ++
      42 :: write_hex_u8 (calculate_checksum (serialize_update_payload u))).head? ≠
      some 85 from by simp)]
  rw [show write_hex_u8 (calculate_checksum (serialize_update_payload u)) =
      [hexChar (calculate_checksum (serialize_update_payload u) / 16),
       hexChar (calculate_checksum (serialize_update_payload u) % 16)] from rfl]
  rw [extract_verified_payload_structured
    (by have := serialize_update_payload_length u; simp [MIN_UPDATE_LEN]; omega)
    h1 h2]
  rw [if_pos (by omega)]
  simp only [except_bind_ok]
  exact parse_update_payload_serialized u h

theorem parse_message_update_serialized (u : GamepadFieldUpdate)
    (h : WfUpdate u) :
    parse_message (serialize_update_bytes u) = .ok (.Update u) := by
  have hc : calculate_checksum (serialize_update_payload u) < 256 :=
    calculate_checksum_lt (serialize_update_payload_lt u)
  unfold parse_message serialize_update_bytes
  have hre : (85 : Nat) :: serialize_update_payload u ++
      42 :: write_hex_u8 (calculate_checksum (serialize_update_payload u)) ++ [10] =
      (85 :: serialize_update_payload u ++
        42 :: write_hex_u8 (calculate_checksum (serialize_update_payload u))) ++
        [10] := by simp
  rw [hre, strip_line_ending_concat ?_]
  · show (if (85 : Nat) = 71 then _ else _) = _
    rw [if_neg (by omega), if_pos rfl, parse_update_serialized u h]
    rfl
  · have hlast : ((85 : Nat) :: serialize_update_payload u ++
        42 :: write_hex_u8 (calculate_checksum (serialize_update_payload u))).getLast? =
        some (hexChar (calculate_checksum (serialize_update_payload u) % 16)) := by
      rw [show (85 : Nat) :: serialize_update_payload u ++
          42 :: write_hex_u8 (calculate_checksum (serialize_update_payload u)) =
          (85 :: serialize_update_payload u ++
            [42, hexChar (calculate_checksum (serialize_update_payload u) / 16)]) ++
            [hexChar (calculate_checksum (serialize_update_payload u) % 16)] from by
        simp [write_hex_u8]]
      exact List.getLast?_concat _
    rw [hlast]
    have := (hexChar_facts (show calculate_checksum (serialize_update_payload u) % 16 < 16
      from Nat.mod_lt _ (by omega))).2.2.2.1
    simp [this]

/-! ## C1 — serialize/parse round-trip -/

/-- C1: for every representable `GamepadState` (all `u16`/`i16`/`u8`
bounds, extremes included) and every `GamepadFieldUpdate`, serializing
with `Serialize::serialize` into a sufficiently large buffer succeeds,
and parsing the produced bytes with `parse` (full state) resp.
`parse_message` (update) returns a value equal to the original. -/
theorem claim1_serialize_parse_roundtrip :
    (∀ s : GamepadState, WfState s → ∀ bufLen : Nat,
      MAX_FULL_STATE_SIZE ≤ bufLen →
      GamepadState.serialize bufLen s = .ok (serialize_full_state_bytes s) ∧
      parse (serialize_full_state_bytes s) = .ok s) ∧
    (∀ u : GamepadFieldUpdate, WfUpdate u → ∀ bufLen : Nat,
      MAX_UPDATE_SIZE ≤ bufLen →
      GamepadFieldUpdate.serialize bufLen u = .ok (serialize_update_bytes u) ∧
      parse_message (serialize_update_bytes u) = .ok (.Update u)) := by
  constructor
  · intro s h bufLen hbuf
    refine ⟨?_, parse_serialize_full_state s h⟩
    unfold GamepadState.serialize
    rw [if_neg (show ¬bufLen < MAX_FULL_STATE_SIZE from by omega)]
  · intro u h bufLen hbuf
    refine ⟨?_, parse_message_update_serialized u h⟩
    unfold GamepadFieldUpdate.serialize
    rw [if_neg (show ¬bufLen < MAX_UPDATE_SIZE from by omega)]

/-- Witness for C1 at the claim's extreme values: buttons `0xFFFF`,
sticks at `i16::MIN`/`i16::MAX`, triggers at `255`, and the update
`LeftStickX(i16::MIN)`, with buffers of 64 and 16 bytes. -/
theorem claim1_serialize_parse_roundtrip_witness :
    WfState ⟨⟨65535⟩, ⟨32767, -32768⟩, ⟨-32768, 32767⟩, 255, 255⟩ ∧
    MAX_FULL_STATE_SIZE ≤ 64 ∧
    WfUpdate (.LeftStickX (-32768)) ∧ MAX_UPDATE_SIZE ≤ 16 ∧
    parse (serialize_full_state_bytes
        ⟨⟨65535⟩, ⟨32767, -32768⟩, ⟨-32768, 32767⟩, 255, 255⟩) =
      .ok ⟨⟨65535⟩, ⟨32767, -32768⟩, ⟨-32768, 32767⟩, 255, 255⟩ ∧
    parse_message (serialize_update_bytes (.LeftStickX (-32768))) =
      .ok (.Update (.LeftStickX (-32768))) :=
  ⟨by decide, by decide, by decide, by decide,
   (claim1_serialize_parse_roundtrip.1 _ (by decide) 64 (by decide)).2,
   (claim1_serialize_parse_roundtrip.2 _ (by decide) 16 (by decide)).2⟩

/-! ## Dispatch and error-propagation helpers for C6/C7 -/

theorem strip_line_ending_id {m : List Nat} (h10 : m.getLast? ≠ some 10)
    (h13 : m.getLast? ≠ some 13) : strip_line_ending m = m := by
  simp only [strip_line_ending]
  rw [if_neg h10, if_neg h13]

theorem getLast?_structured {pfx : Nat} {payload : List Nat} {c1 c2 : Nat} :
    (pfx :: payload ++ 42 :: [c1, c2]).getLast? = some c2 := by
  rw [show pfx :: payload ++ 42 :: [c1, c2] =
      (pfx :: payload ++ [42, c1]) ++ [c2] from by simp]
  exact List.getLast?_concat _

theorem parse_full_state_of_extract_error {payload : List Nat} {c1 c2 : Nat}
    {e : InputError}
    (hex : extract_verified_payload (71 :: payload ++ 42 :: [c1, c2])
      MIN_FULL_STATE_LEN = .error e) :
    parse_full_state (71 :: payload ++ 42 :: [c1, c2]) = .error e := by
  unfold parse_full_state
  rw [if_neg (show ¬((71 : Nat) :: payload ++ 42 :: [c1, c2]).head? ≠ some 71
    from by simp)]
  simp only [hex, except_bind_error]

theorem parse_update_of_extract_error {payload : List Nat} {c1 c2 : Nat}
    {e : InputError}
    (hex : extract_verified_payload (85 :: payload ++ 42 :: [c1, c2])
      MIN_UPDATE_LEN = .error e) :
    parse_update (85 :: payload ++ 42 :: [c1, c2]) = .error e := by
  unfold parse_update
  rw [if_neg (show ¬((85 : Nat) :: payload ++ 42 :: [c1, c2]).head? ≠ some 85
    from by simp)]
  simp only [hex, except_bind_error]

theorem parse_message_head_G {rest : List Nat}
    (hstrip : strip_line_ending (71 :: rest) = 71 :: rest) :
    parse_message (71 :: rest) =
      (parse_full_state (71 :: rest)).map ParsedMessage.FullState := by
  unfold parse_message
  rw [hstrip]
  rfl

theorem parse_message_head_U {rest : List Nat}
    (hstrip : strip_line_ending (85 :: rest) = 85 :: rest) :
    parse_message (85 :: rest) =
      (parse_update (85 :: rest)).map ParsedMessage.Update := by
  unfold parse_message
  rw [hstrip]
  rfl

/-! ## C6 — checksum mismatch is a distinct error kind -/

/-- C6: a line that is well-formed enough to reach checksum
verification — long enough for its kind, ending in `'*'` followed by
two hex checksum characters — whose checksum value differs from the
XOR-fold of the payload is rejected with `InputError::Checksum`, by
both `parse` (full-state) and `parse_message` (either prefix), and
that error kind is distinct from `InputError::Parse`. -/
theorem claim6_checksum_mismatch_error :
    (∀ (payload : List Nat) (c1 c2 d1 d2 : Nat),
      hex_digit c1 = .ok d1 → hex_digit c2 = .ok d2 →
      16 ≤ payload.length →
      calculate_checksum payload ≠ d1 * 16 + d2 →
      parse (71 :: payload ++ 42 :: [c1, c2]) = .error .Checksum ∧
      parse_message (71 :: payload ++ 42 :: [c1, c2]) = .error .Checksum) ∧
    (∀ (payload : List Nat) (c1 c2 d1 d2 : Nat),
      hex_digit c1 = .ok d1 → hex_digit c2 = .ok d2 →
      3 ≤ payload.length →
      calculate_checksum payload ≠ d1 * 16 + d2 →
      parse_message (85 :: payload ++ 42 :: [c1, c2]) = .error .Checksum) ∧
    InputError.Checksum ≠ InputError.Parse := by
  refine ⟨?_, ?_, by decide⟩
  · intro payload c1 c2 d1 d2 h1 h2 hlen hne
    have hc2f := hex_digit_ok_facts h2
    have hstrip : strip_line_ending (71 :: payload ++ 42 :: [c1, c2]) =
        71 :: payload ++ 42 :: [c1, c2] := by
      refine strip_line_ending_id ?_ ?_ <;> rw [getLast?_structured] <;>
        simp <;> omega
    have hex : extract_verified_payload (71 :: payload ++ 42 :: [c1, c2])
        MIN_FULL_STATE_LEN = .error .Checksum := by
      rw [extract_verified_payload_structured
        (by simp [MIN_FULL_STATE_LEN]; omega) h1 h2, if_neg hne]
    have hfull := parse_full_state_of_extract_error hex
    constructor
    · unfold parse
      rw [hstrip, hfull]
    · have hstrip' : strip_line_ending (71 :: (payload ++ 42 :: [c1, c2])) =
          71 :: (payload ++ 42 :: [c1, c2]) := hstrip
      have hfull' : parse_full_state (71 :: (payload ++ 42 :: [c1, c2])) =
          .error .Checksum := hfull
      show parse_message (71 :: (payload ++ 42 :: [c1, c2])) = .error .Checksum
      rw [parse_message_head_G hstrip', hfull']
      rfl
  · intro payload c1 c2 d1 d2 h1 h2 hlen hne
    have hc2f := hex_digit_ok_facts h2
    have hstrip : strip_line_ending (85 :: payload ++ 42 :: [c1, c2]) =
        85 :: payload ++ 42 :: [c1, c2] := by
      refine strip_line_ending_id ?_ ?_ <;> rw [getLast?_structured] <;>
        simp <;> omega
    have hex : extract_verified_payload (85 :: payload ++ 42 :: [c1, c2])
        MIN_UPDATE_LEN = .error .Checksum := by
      rw [extract_verified_payload_structured
        (by simp [MIN_UPDATE_LEN]; omega) h1 h2, if_neg hne]
    have hstrip' : strip_line_ending (85 :: (payload ++ 42 :: [c1, c2])) =
        85 :: (payload ++ 42 :: [c1, c2]) := hstrip
    have hupd' : parse_update (85 :: (payload ++ 42 :: [c1, c2])) =
        .error .Checksum := parse_update_of_extract_error hex
    show parse_message (85 :: (payload ++ 42 :: [c1, c2])) = .error .Checksum
    rw [parse_message_head_U hstrip', hupd']
    rfl

/-- Witness for C6: the Rust test vector `"G0000:0:0:0:0:0:0*FF"`,
whose payload XOR is `0x00`, with checksum characters `"FF"`. -/
theorem claim6_checksum_mismatch_error_witness :
    hex_digit 70 = .ok 15 ∧ 16 ≤ ([48, 48, 48, 48, 58, 48, 58, 48, 58, 48,
      58, 48, 58, 48, 58, 48] : List Nat).length ∧
    calculate_checksum [48, 48, 48, 48, 58, 48, 58, 48, 58, 48, 58, 48, 58,
      48, 58, 48] ≠ 15 * 16 + 15 ∧
    parse (71 :: [48, 48, 48, 48, 58, 48, 58, 48, 58, 48, 58, 48, 58, 48,
      58, 48] ++ 42 :: [70, 70]) = .error .Checksum :=
  ⟨by decide, by decide, by decide,
   ((claim6_checksum_mismatch_error.1 [48, 48, 48, 48, 58, 48, 58, 48, 58,
      48, 58, 48, 58, 48, 58, 48] 70 70 15 15 (by decide) (by decide)
      (by decide) (by decide)).1)⟩

/-! ## XOR-checksum algebra: a single changed byte changes the fold -/

theorem checksum_foldl_acc (l : List Nat) (acc : Nat) :
    l.foldl (fun a b => a ^^^ b) acc = acc ^^^ calculate_checksum l := by
  induction l generalizing acc with
  | nil => simp [calculate_checksum]
  | cons b rest ih =>
    show List.foldl _ (acc ^^^ b) rest = acc ^^^ calculate_checksum (b :: rest)
    rw [ih]
    have : calculate_checksum (b :: rest) = b ^^^ calculate_checksum rest := by
      show List.foldl _ (0 ^^^ b) rest = _
      rw [ih, Nat.zero_xor]
    rw [this, Nat.xor_assoc]

theorem calculate_checksum_append (a b : List Nat) :
    calculate_checksum (a ++ b) = calculate_checksum a ^^^ calculate_checksum b := by
  unfold calculate_checksum
  rw [List.foldl_append]
  exact checksum_foldl_acc b _

theorem calculate_checksum_cons (x : Nat) (l : List Nat) :
    calculate_checksum (x :: l) = x ^^^ calculate_checksum l := by
  show List.foldl _ (0 ^^^ x) l = _
  rw [checksum_foldl_acc, Nat.zero_xor]

theorem nat_xor_left_cancel {a x y : Nat} (h : a ^^^ x = a ^^^ y) : x = y := by
  have : a ^^^ (a ^^^ x) = a ^^^ (a ^^^ y) := by rw [h]
  rwa [← Nat.xor_assoc, ← Nat.xor_assoc, Nat.xor_self, Nat.zero_xor,
    Nat.zero_xor] at this

theorem checksum_set_ne {l : List Nat} {i : Nat} (hi : i < l.length) {b : Nat}
    (hne : b ≠ l.getD i 0) :
    calculate_checksum (l.set i b) ≠ calculate_checksum l := by
  have hdecomp : l = l.take i ++ l.getD i 0 :: l.drop (i + 1) := by
    conv_lhs => rw [← List.take_append_drop i l]
    congr 1
    rw [List.getD_eq_getElem l 0 hi]
    exact (List.getElem_cons_drop l i hi).symm
  have hset : l.set i b = l.take i ++ b :: l.drop (i + 1) := by
    rw [List.set_eq_take_append_cons_drop, if_pos hi]
  intro hcontra
  rw [hset] at hcontra
  conv_rhs at hcontra => rw [hdecomp]
  rw [calculate_checksum_append, calculate_checksum_append,
    calculate_checksum_cons, calculate_checksum_cons] at hcontra
  have h1 := nat_xor_left_cancel hcontra
  have h2 : (b ^^^ calculate_checksum (List.drop (i + 1) l)) ^^^
      calculate_checksum (List.drop (i + 1) l) =
      (l.getD i 0 ^^^ calculate_checksum (List.drop (i + 1) l)) ^^^
        calculate_checksum (List.drop (i + 1) l) := by
    rw [h1]
  rw [Nat.xor_assoc, Nat.xor_self, Nat.xor_zero, Nat.xor_assoc, Nat.xor_self,
    Nat.xor_zero] at h2
  exact hne h2

/-! ## Stripping and extraction error paths for corrupted lines -/

theorem strip_line_ending_concat_lf (m : List Nat) :
    strip_line_ending (m ++ [10]) =
      if m.getLast? = some 13 then m.dropLast else m := by
  simp only [strip_line_ending, List.getLast?_concat, eq_self_iff_true,
    if_true, List.dropLast_concat]

theorem strip_line_ending_concat_cr (m : List Nat) :
    strip_line_ending (m ++ [13]) = m := by
  simp only [strip_line_ending, List.getLast?_concat]
  rw [if_neg (show ¬(some (13 : Nat) = some 10) from by decide),
    List.getLast?_concat, if_pos rfl, List.dropLast_concat]

theorem extract_short {line : List Nat} {minl : Nat}
    (h : line.length < minl) :
    extract_verified_payload line minl = .error .Parse := by
  unfold extract_verified_payload
  rw [if_pos h]

theorem extract_star_tail {line : List Nat} {minl p : Nat}
    (h1 : ¬line.length < minl) (hp : rpositionStar line = some p)
    (h2 : p + 3 > line.length) :
    extract_verified_payload line minl = .error .Parse := by
  unfold extract_verified_payload
  rw [if_neg h1, hp]
  show (if p + 3 > line.length then Except.error InputError.Parse else _) = _
  rw [if_pos h2]

theorem extract_error_parse_of_star_tail {pfx : Nat} {payload l2 : List Nat}
    {minl : Nat} (hl2 : 42 ∉ l2)
    (hgt : payload.length + 1 + 3 > (pfx :: payload ++ 42 :: l2).length) :
    extract_verified_payload (pfx :: payload ++ 42 :: l2) minl = .error .Parse := by
  by_cases hlen : (pfx :: payload ++ 42 :: l2).length < minl
  · exact extract_short hlen
  · refine extract_star_tail hlen ?_ hgt
    have := @rpositionStar_append (pfx :: payload) l2 hl2
    simpa using this

theorem extract_structured_hex_err
    {pfx : Nat} {payload : List Nat} {g1 g2 minl : Nat} {e : InputError}
    (hlen : minl ≤ payload.length + 4) (hg1 : g1 ≠ 42) (hg2 : g2 ≠ 42)
    (hpx : parse_hex_u8 [g1, g2] = .error e) :
    extract_verified_payload (pfx :: payload ++ 42 :: [g1, g2]) minl =
      .error e := by
  have hnostar : 42 ∉ [g1, g2] := by
    simp only [List.mem_cons, List.not_mem_nil, or_false]
    push_neg
    exact ⟨fun hx => hg1 hx.symm, fun hx => hg2 hx.symm⟩
  have hlength : (pfx :: payload ++ 42 :: [g1, g2]).length = payload.length + 4 := by
    simp
  have hrpos : rpositionStar (pfx :: payload ++ 42 :: [g1, g2]) =
      some (payload.length + 1) := by
    have := @rpositionStar_append (pfx :: payload) [g1, g2] hnostar
    simpa using this
  have hcsum : (pfx :: payload ++ 42 :: [g1, g2]).drop (payload.length + 1 + 1) =
      [g1, g2] := by
    have hre : pfx :: payload ++ 42 :: [g1, g2] =
        (pfx :: payload ++ [42]) ++ [g1, g2] := by simp
    have hlen2 : (pfx :: payload ++ [42]).length = payload.length + 2 := by simp
    rw [hre, show payload.length + 1 + 1 = (pfx :: payload ++ [42]).length from by
      rw [hlen2]]
    exact List.drop_left _ _
  unfold extract_verified_payload
  rw [hlength, if_neg (show ¬(payload.length + 4 < minl) from by omega)]
  split
  · rename_i heq
    rw [hrpos] at heq
    cases heq
  · rename_i p heq
    rw [hrpos] at heq
    injection heq with hp
    subst hp
    rw [if_neg (show ¬(payload.length + 1 + 3 > payload.length + 4) from by omega)]
    simp only [hcsum, hpx]

theorem hex_digit_error {b : Nat} {e : InputError} (h : hex_digit b = .error e) :
    e = .Parse := by
  unfold hex_digit at h
  split_ifs at h <;> cases h <;> rfl

theorem parse_hex_u8_error {g1 g2 : Nat}
    (h : hex_digit g1 = .error .Parse ∨ hex_digit g2 = .error .Parse) :
    parse_hex_u8 [g1, g2] = .error .Parse := by
  rcases h with h | h
  · simp only [parse_hex_u8, h, except_bind_error]
  · rcases hg1 : hex_digit g1 with e | d
    · rw [hex_digit_error hg1] at hg1
      simp only [parse_hex_u8, hg1, except_bind_error]
    · simp only [parse_hex_u8, hg1, except_bind_ok, h, except_bind_error]

theorem parse_full_state_error_any {line : List Nat} {e : InputError}
    (hhead : line.head? = some 71)
    (hex : extract_verified_payload line MIN_FULL_STATE_LEN = .error e) :
    parse_full_state line = .error e := by
  unfold parse_full_state
  rw [if_neg (by simp [hhead])]
  simp only [hex, except_bind_error]

theorem parse_update_error_any {line : List Nat} {e : InputError}
    (hhead : line.head? = some 85)
    (hex : extract_verified_payload line MIN_UPDATE_LEN = .error e) :
    parse_update line = .error e := by
  unfold parse_update
  rw [if_neg (by simp [hhead])]
  simp only [hex, except_bind_error]

theorem parse_message_error_after_strip {L0 : List Nat} {pfx : Nat}
    {rest : List Nat} {e : InputError}
    (hpfx : pfx = 71 ∨ pfx = 85)
    (hstrip : strip_line_ending L0 = pfx :: rest)
    (hG : pfx = 71 → parse_full_state (pfx :: rest) = .error e)
    (hU : pfx = 85 → parse_update (pfx :: rest) = .error e) :
    parse_message L0 = .error e := by
  unfold parse_message
  rw [hstrip]
  rcases hpfx with rfl | rfl
  · show (if (71 : Nat) = 71 then
        (parse_full_state (71 :: rest)).map ParsedMessage.FullState
      else if (71 : Nat) = 85 then
        (parse_update (71 :: rest)).map ParsedMessage.Update
      else .error .Parse) = .error e
    rw [if_pos rfl, hG rfl]
    rfl
  · show (if (85 : Nat) = 71 then
        (parse_full_state (85 :: rest)).map ParsedMessage.FullState
      else if (85 : Nat) = 85 then
        (parse_update (85 :: rest)).map ParsedMessage.Update
      else .error .Parse) = .error e
    rw [if_neg (by omega), if_pos rfl, hU rfl]
    rfl

theorem parse_message_star_tail_error {pfx : Nat} {L0 payload' l2 : List Nat}
    (hpfx : pfx = 71 ∨ pfx = 85)
    (hl2 : 42 ∉ l2)
    (hgt : payload'.length + 1 + 3 > (pfx :: payload' ++ 42 :: l2).length)
    (hstrip : strip_line_ending L0 = pfx :: payload' ++ 42 :: l2) :
    parse_message L0 = .error .Parse := by
  have hx : ∀ minl, extract_verified_payload (pfx :: payload' ++ 42 :: l2) minl =
      .error .Parse :=
    fun minl => extract_error_parse_of_star_tail hl2 hgt
  refine parse_message_error_after_strip hpfx hstrip ?_ ?_
  · intro h71
    subst h71
    exact parse_full_state_error_any rfl (hx _)
  · intro h85
    subst h85
    exact parse_update_error_any rfl (hx _)

theorem parse_message_bad_hex_error {pfx : Nat} {payload : List Nat}
    {g1 g2 : Nat}
    (hpfx : pfx = 71 ∨ pfx = 85)
    (h16 : pfx = 71 → 16 ≤ payload.length)
    (h3 : pfx = 85 → 3 ≤ payload.length)
    (hg1 : g1 ≠ 42) (hg2 : g2 ≠ 42)
    (hpx : parse_hex_u8 [g1, g2] = .error .Parse)
    (hstrip : strip_line_ending (pfx :: payload ++ 42 :: [g1, g2]) =
      pfx :: payload ++ 42 :: [g1, g2]) :
    parse_message (pfx :: payload ++ 42 :: [g1, g2]) = .error .Parse := by
  refine parse_message_error_after_strip hpfx hstrip ?_ ?_
  · intro h71
    subst h71
    refine parse_full_state_error_any rfl (extract_structured_hex_err ?_ hg1 hg2 hpx)
    have := h16 rfl
    simp [MIN_FULL_STATE_LEN]
    omega
  · intro h85
    subst h85
    refine parse_update_error_any rfl (extract_structured_hex_err ?_ hg1 hg2 hpx)
    have := h3 rfl
    simp [MIN_UPDATE_LEN]
    omega

theorem parse_message_checksum_error_structured {pfx : Nat}
    {payload : List Nat} {c1 c2 d1 d2 : Nat}
    (hpfx : pfx = 71 ∨ pfx = 85)
    (h16 : pfx = 71 → 16 ≤ payload.length)
    (h3 : pfx = 85 → 3 ≤ payload.length)
    (h1 : hex_digit c1 = .ok d1) (h2 : hex_digit c2 = .ok d2)
    (hne : calculate_checksum payload ≠ d1 * 16 + d2) :
    parse_message (pfx :: payload ++ 42 :: [c1, c2]) = .error .Checksum := by
  have hc2f := hex_digit_ok_facts h2
  have hstrip : strip_line_ending (pfx :: payload ++ 42 :: [c1, c2]) =
      pfx :: payload ++ 42 :: [c1, c2] := by
    refine strip_line_ending_id ?_ ?_ <;> rw [getLast?_structured] <;>
      simp <;> omega
  refine parse_message_error_after_strip hpfx hstrip ?_ ?_
  · intro h71
    subst h71
    refine parse_full_state_error_any rfl ?_
    have hlen : MIN_FULL_STATE_LEN ≤ payload.length + 4 := by
      have := h16 rfl
      simp [MIN_FULL_STATE_LEN]
      omega
    show extract_verified_payload ((71 : Nat) :: payload ++ 42 :: [c1, c2])
      MIN_FULL_STATE_LEN = Except.error InputError.Checksum
    rw [extract_verified_payload_structured hlen h1 h2, if_neg hne]
  · intro h85
    subst h85
    refine parse_update_error_any rfl ?_
    have hlen : MIN_UPDATE_LEN ≤ payload.length + 4 := by
      have := h3 rfl
      simp [MIN_UPDATE_LEN]
      omega
    show extract_verified_payload ((85 : Nat) :: payload ++ 42 :: [c1, c2])
      MIN_UPDATE_LEN = Except.error InputError.Checksum
    rw [extract_verified_payload_structured hlen h1 h2, if_neg hne]

/-! ## C7 — corrupted messages are never silently accepted (corrected)

The claim as stated is false: checksum characters re-spelled with the
same hex value (case change, e.g. `"1E"` → `"1e"`) are still accepted
(hex parsing is case-insensitive), and non-hex corruption of the
checksum field yields a *parse* error, not a checksum error.  The
counterexample exhibits the accepted respelling on the serialized
message for `LeftStickX(0)`; the amended theorem proves what does
hold. -/

/-- C7 (counterexample): `serialize` produces `"ULX:0*1E\n"` for
`LeftStickX(0)`; changing only the checksum characters to `"1e"` gives
a different byte string that `parse_message` still accepts — corrupting
only the two checksum characters does not always yield a
checksum-error result. -/
theorem claim7_checksum_respelling_accepted :
    serialize_update_bytes (.LeftStickX 0) =
      [85, 76, 88, 58, 48, 42, 49, 69, 10] ∧
    ([85, 76, 88, 58, 48, 42, 49, 101, 10] : List Nat) ≠
      [85, 76, 88, 58, 48, 42, 49, 69, 10] ∧
    parse_message [85, 76, 88, 58, 48, 42, 49, 101, 10] =
      .ok (.Update (.LeftStickX 0)) := by
  refine ⟨by decide, by decide, by decide⟩

/-- C7 (amended): on a message line of either kind whose payload is
long enough for its prefix, (a) changing any single payload byte while
keeping the previously matching checksum yields the `Checksum` error;
(b) corrupting the checksum characters to a hex pair denoting a value
different from the payload XOR yields the `Checksum` error; (c)
corrupting them so that they are no longer a hex pair yields the
`Parse` error — in no case is the modified message silently accepted
(the one exception, a re-spelling of the same checksum value, is the
counterexample above). -/
theorem claim7_corruption_never_silently_accepted :
    (∀ (pfx : Nat) (payload : List Nat) (c1 c2 d1 d2 i b : Nat),
      pfx = 71 ∨ pfx = 85 →
      (pfx = 71 → 16 ≤ payload.length) → (pfx = 85 → 3 ≤ payload.length) →
      hex_digit c1 = .ok d1 → hex_digit c2 = .ok d2 →
      calculate_checksum payload = d1 * 16 + d2 →
      i < payload.length → b ≠ payload.getD i 0 →
      parse_message (pfx :: payload.set i b ++ 42 :: [c1, c2]) =
        .error .Checksum) ∧
    (∀ (pfx : Nat) (payload : List Nat) (g1 g2 e1 e2 : Nat),
      pfx = 71 ∨ pfx = 85 →
      (pfx = 71 → 16 ≤ payload.length) → (pfx = 85 → 3 ≤ payload.length) →
      hex_digit g1 = .ok e1 → hex_digit g2 = .ok e2 →
      calculate_checksum payload ≠ e1 * 16 + e2 →
      parse_message (pfx :: payload ++ 42 :: [g1, g2]) = .error .Checksum) ∧
    (∀ (pfx : Nat) (payload : List Nat) (g1 g2 : Nat),
      pfx = 71 ∨ pfx = 85 →
      (pfx = 71 → 16 ≤ payload.length) → (pfx = 85 → 3 ≤ payload.length) →
      (hex_digit g1 = .error .Parse ∨ hex_digit g2 = .error .Parse) →
      parse_message (pfx :: payload ++ 42 :: [g1, g2]) = .error .Parse) := by
  refine ⟨?_, ?_, ?_⟩
  · -- (a) single payload byte flipped
    intro pfx payload c1 c2 d1 d2 i b hpfx h16 h3 h1 h2 hck hi hb
    have hmis : calculate_checksum (payload.set i b) ≠ d1 * 16 + d2 := by
      rw [← hck]
      exact checksum_set_ne hi hb
    refine parse_message_checksum_error_structured hpfx ?_ ?_ h1 h2 hmis
    · intro h71
      rw [List.length_set]
      exact h16 h71
    · intro h85
      rw [List.length_set]
      exact h3 h85
  · -- (b) checksum re-valued within hex
    intro pfx payload g1 g2 e1 e2 hpfx h16 h3 h1 h2 hne
    exact parse_message_checksum_error_structured hpfx h16 h3 h1 h2 hne
  · -- (c) checksum corrupted outside hex
    intro pfx payload g1 g2 hpfx h16 h3 hhex
    by_cases hg2_10 : g2 = 10
    · subst hg2_10
      rw [show pfx :: payload ++ 42 :: [g1, 10] =
          ((pfx :: payload ++ [42]) ++ [g1]) ++ [10] from by simp]
      by_cases hg1_13 : g1 = 13
      · subst hg1_13
        have hstrip : strip_line_ending (((pfx :: payload ++ [42]) ++ [13]) ++ [10]) =
            pfx :: payload ++ 42 :: [] := by
          rw [strip_line_ending_concat_lf, List.getLast?_concat, if_pos rfl,
            List.dropLast_concat]
        exact @parse_message_star_tail_error _ _ payload [] hpfx
          (by simp) (by simp) hstrip
      · have hstrip : strip_line_ending (((pfx :: payload ++ [42]) ++ [g1]) ++ [10]) =
            (pfx :: payload ++ [42]) ++ [g1] := by
          rw [strip_line_ending_concat_lf, List.getLast?_concat,
            if_neg (by simp [hg1_13])]
        by_cases hg1_42 : g1 = 42
        · subst hg1_42
          refine @parse_message_star_tail_error _ _ (payload ++ [42]) []
            hpfx (by simp) (by simp) ?_
          rw [hstrip]
          simp
        · refine @parse_message_star_tail_error _ _ payload [g1]
            hpfx (by simp [hg1_42]; omega) (by simp) ?_
          rw [hstrip]
          simp
    · by_cases hg2_13 : g2 = 13
      · subst hg2_13
        rw [show pfx :: payload ++ 42 :: [g1, 13] =
            ((pfx :: payload ++ [42]) ++ [g1]) ++ [13] from by simp]
        have hstrip : strip_line_ending (((pfx :: payload ++ [42]) ++ [g1]) ++ [13]) =
            (pfx :: payload ++ [42]) ++ [g1] := strip_line_ending_concat_cr _
        by_cases hg1_42 : g1 = 42
        · subst hg1_42
          refine @parse_message_star_tail_error _ _ (payload ++ [42]) []
            hpfx (by simp) (by simp) ?_
          rw [hstrip]
          simp
        · refine @parse_message_star_tail_error _ _ payload [g1]
            hpfx (by simp [hg1_42]; omega) (by simp) ?_
          rw [hstrip]
          simp
      · -- last byte survives stripping
        have hstrip : strip_line_ending (pfx :: payload ++ 42 :: [g1, g2]) =
            pfx :: payload ++ 42 :: [g1, g2] := by
          refine strip_line_ending_id ?_ ?_ <;> rw [getLast?_structured] <;>
            simp [hg2_10, hg2_13]
        by_cases hg2_42 : g2 = 42
        · subst hg2_42
          refine @parse_message_star_tail_error _ _ (payload ++ [42, g1]) []
            hpfx (by simp) (by simp) ?_
          rw [hstrip]
          simp
        · by_cases hg1_42 : g1 = 42
          · subst hg1_42
            refine @parse_message_star_tail_error _ _ (payload ++ [42]) [g2]
              hpfx (by simp [hg2_42]; omega) (by simp) ?_
            rw [hstrip]
            simp
          · exact parse_message_bad_hex_error hpfx h16 h3 hg1_42 hg2_42
              (parse_hex_u8_error hhex) hstrip

/-- Witness for C7 on the update message `"UB:0001*79"` (payload XOR
`0x79`): flipping the payload byte `'1'` to `'2'` yields the checksum
error. -/
theorem claim7_corruption_never_silently_accepted_witness :
    ((85 : Nat) = 71 ∨ (85 : Nat) = 85) ∧
    hex_digit 55 = .ok 7 ∧ hex_digit 57 = .ok 9 ∧
    calculate_checksum [66, 58, 48, 48, 48, 49] = 7 * 16 + 9 ∧
    (5 : Nat) < ([66, 58, 48, 48, 48, 49] : List Nat).length ∧
    parse_message (85 :: ([66, 58, 48, 48, 48, 49] : List Nat).set 5 50 ++
      42 :: [55, 57]) = .error .Checksum :=
  ⟨Or.inr rfl, by decide, by decide, by decide, by decide,
   claim7_corruption_never_silently_accepted.1 85 [66, 58, 48, 48, 48, 49]
     55 57 7 9 5 50 (Or.inr rfl) (by omega) (by decide) (by decide)
     (by decide) (by decide) (by decide) (by decide)⟩

/-! ## Update messages with a valid checksum reduce to the payload parser -/

/-- An update line with the right prefix, a long-enough payload and a
matching checksum reaches `parse_update_payload` on the payload. -/
theorem parse_update_structured {payload : List Nat} {c1 c2 d1 d2 : Nat}
    (hlen : 3 ≤ payload.length)
    (h1 : hex_digit c1 = .ok d1) (h2 : hex_digit c2 = .ok d2)
    (hck : calculate_checksum payload = d1 * 16 + d2) :
    parse_update (85 :: payload ++ 42 :: [c1, c2]) =
      parse_update_payload payload := by
  unfold parse_update
  rw [if_neg (show ¬((85 : Nat) :: payload ++ 42 :: [c1, c2]).head? ≠ some 85
    from by simp)]
  rw [extract_verified_payload_structured (by simp [MIN_UPDATE_LEN]; omega) h1 h2]
  rw [if_pos hck]
  simp only [except_bind_ok]

/-- `parse_message` on such a line is the mapped payload-parser result. -/
theorem parse_message_update_structured {payload : List Nat} {c1 c2 d1 d2 : Nat}
    (hlen : 3 ≤ payload.length)
    (h1 : hex_digit c1 = .ok d1) (h2 : hex_digit c2 = .ok d2)
    (hck : calculate_checksum payload = d1 * 16 + d2) :
    parse_message (85 :: payload ++ 42 :: [c1, c2]) =
      (parse_update_payload payload).map ParsedMessage.Update := by
  have hc2f := hex_digit_ok_facts h2
  have hstrip0 : strip_line_ending ((85 : Nat) :: payload ++ 42 :: [c1, c2]) =
      (85 : Nat) :: payload ++ 42 :: [c1, c2] := by
    refine strip_line_ending_id ?_ ?_ <;> rw [getLast?_structured] <;> simp <;>
      omega
  have hstrip : strip_line_ending ((85 : Nat) :: (payload ++ 42 :: [c1, c2])) =
      (85 : Nat) :: (payload ++ 42 :: [c1, c2]) := hstrip0
  show parse_message ((85 : Nat) :: (payload ++ 42 :: [c1, c2])) =
    (parse_update_payload payload).map ParsedMessage.Update
  rw [parse_message_head_U hstrip]
  exact congrArg (fun t => Except.map ParsedMessage.Update t)
    (parse_update_structured hlen h1 h2 hck)

/-- `parse_update_payload` on an `LX:` payload parses the value as
`i16`. -/
theorem parse_update_payload_LX (value : List Nat) :
    parse_update_payload (76 :: 88 :: 58 :: value) =
      parse_i16 value >>= fun v => .ok (.LeftStickX v) := rfl

/-- `parse_update_payload` on an `LT:` payload parses the value as
`u8`. -/
theorem parse_update_payload_LT (value : List Nat) :
    parse_update_payload (76 :: 84 :: 58 :: value) =
      parse_u8 value >>= fun v => .ok (.LeftTrigger v) := rfl

/-- Splitting a full-state payload whose `lx` slot holds a digit
string and all other slots hold `"0000"`/`"0"`. -/
theorem splitColon_overflow_payload (D : List Nat)
    (hD : ∀ b ∈ D, 48 ≤ b ∧ b ≤ 57) :
    splitColon ([48, 48, 48, 48, 58] ++ D ++
        [58, 48, 58, 48, 58, 48, 58, 48, 58, 48]) =
      [[48, 48, 48, 48], D, [48], [48], [48], [48], [48]] := by
  have h58 : 58 ∉ D := fun hmem => by have := hD 58 hmem; omega
  have hre : [48, 48, 48, 48, 58] ++ D ++ [58, 48, 58, 48, 58, 48, 58, 48, 58, 48] =
      [48, 48, 48, 48] ++ 58 :: (D ++ 58 :: [48, 58, 48, 58, 48, 58, 48, 58, 48]) := by
    simp
  rw [hre, splitColon_append (by decide), splitColon_append h58]
  rfl

/-! ## C8 — numeric overflow and underflow are parse errors -/

/-- C8: a numeric field that overflows or underflows its type's range
is rejected with a parse error.  Field level: every decimal digit
string denoting `n > 32767` fails `parse_i16`, every negated digit
string denoting `-n < -32768` fails `parse_i16`, and every digit
string denoting `n > 255` fails `parse_u8`, each with
`InputError::Parse`.  Message level: an update line `ULX:<n>` with
`n > 32767`, `ULX:-<n>` with `n > 32768`, or `ULT:<n>` with `n > 255`
(each carrying its correct checksum) makes `parse_message` return the
parse error, and a full-state line whose `lx` field is an overflowing
digit string (correct checksum) makes `parse` return the parse error.
Concretely `"ULX:32767*19\n"` parses to `Update(LeftStickX(32767))`
while `"ULX:32768*16\n"` is a parse error. -/
theorem claim8_numeric_overflow :
    (∀ n : Nat, 32767 < n → parse_i16 (writeDigitsBE n) = .error .Parse) ∧
    (∀ n : Nat, 32768 < n → parse_i16 (45 :: writeDigitsBE n) = .error .Parse) ∧
    (∀ n : Nat, 255 < n → parse_u8 (writeDigitsBE n) = .error .Parse) ∧
    (∀ n c1 c2 d1 d2 : Nat, 32767 < n →
      hex_digit c1 = .ok d1 → hex_digit c2 = .ok d2 →
      calculate_checksum ([76, 88, 58] ++ writeDigitsBE n) = d1 * 16 + d2 →
      parse_message (85 :: ([76, 88, 58] ++ writeDigitsBE n) ++ 42 :: [c1, c2]) =
        .error .Parse) ∧
    (∀ n c1 c2 d1 d2 : Nat, 32768 < n →
      hex_digit c1 = .ok d1 → hex_digit c2 = .ok d2 →
      calculate_checksum ([76, 88, 58, 45] ++ writeDigitsBE n) = d1 * 16 + d2 →
      parse_message (85 :: ([76, 88, 58, 45] ++ writeDigitsBE n) ++ 42 :: [c1, c2]) =
        .error .Parse) ∧
    (∀ n c1 c2 d1 d2 : Nat, 255 < n →
      hex_digit c1 = .ok d1 → hex_digit c2 = .ok d2 →
      calculate_checksum ([76, 84, 58] ++ writeDigitsBE n) = d1 * 16 + d2 →
      parse_message (85 :: ([76, 84, 58] ++ writeDigitsBE n) ++ 42 :: [c1, c2]) =
        .error .Parse) ∧
    (∀ n c1 c2 d1 d2 : Nat, 32767 < n →
      hex_digit c1 = .ok d1 → hex_digit c2 = .ok d2 →
      calculate_checksum ([48, 48, 48, 48, 58] ++ writeDigitsBE n ++
        [58, 48, 58, 48, 58, 48, 58, 48, 58, 48]) = d1 * 16 + d2 →
      parse (71 :: ([48, 48, 48, 48, 58] ++ writeDigitsBE n ++
        [58, 48, 58, 48, 58, 48, 58, 48, 58, 48]) ++ 42 :: [c1, c2]) =
        .error .Parse) ∧
    parse_message [85, 76, 88, 58, 51, 50, 55, 54, 55, 42, 49, 57, 10] =
      .ok (.Update (.LeftStickX 32767)) ∧
    parse_message [85, 76, 88, 58, 51, 50, 55, 54, 56, 42, 49, 54, 10] =
      .error .Parse := by
  refine ⟨fun n hn => parse_i16_digits_overflow hn,
    fun n hn => parse_i16_digits_underflow hn,
    fun n hn => parse_u8_digits_overflow hn, ?_, ?_, ?_, ?_, by decide, by decide⟩
  · -- ULX:<n>, n > 32767
    intro n c1 c2 d1 d2 hn h1 h2 hck
    rw [parse_message_update_structured (by simp) h1 h2 hck,
      show parse_update_payload ([76, 88, 58] ++ writeDigitsBE n) =
        parse_update_payload (76 :: 88 :: 58 :: writeDigitsBE n) from rfl,
      parse_update_payload_LX (writeDigitsBE n), parse_i16_digits_overflow hn]
    rfl
  · -- ULX:-<n>, n > 32768
    intro n c1 c2 d1 d2 hn h1 h2 hck
    rw [parse_message_update_structured (by simp) h1 h2 hck,
      show parse_update_payload ([76, 88, 58, 45] ++ writeDigitsBE n) =
        parse_update_payload (76 :: 88 :: 58 :: (45 :: writeDigitsBE n)) from rfl,
      parse_update_payload_LX (45 :: writeDigitsBE n),
      parse_i16_digits_underflow hn]
    rfl
  · -- ULT:<n>, n > 255
    intro n c1 c2 d1 d2 hn h1 h2 hck
    rw [parse_message_update_structured (by simp) h1 h2 hck,
      show parse_update_payload ([76, 84, 58] ++ writeDigitsBE n) =
        parse_update_payload (76 :: 84 :: 58 :: writeDigitsBE n) from rfl,
      parse_update_payload_LT (writeDigitsBE n), parse_u8_digits_overflow hn]
    rfl
  · -- full-state line with overflowing lx
    intro n c1 c2 d1 d2 hn h1 h2 hck
    have hD := @writeDigitsBE_mem n
    have hne : writeDigitsBE n ≠ [] := writeDigitsBE_ne_nil (by omega)
    have hlen1 : 1 ≤ (writeDigitsBE n).length := by
      rcases hW : writeDigitsBE n with _ | ⟨b, r⟩
      · exact absurd hW hne
      · simp
    have hc2f := hex_digit_ok_facts h2
    have hstrip : strip_line_ending (71 :: ([48, 48, 48, 48, 58] ++ writeDigitsBE n ++
        [58, 48, 58, 48, 58, 48, 58, 48, 58, 48]) ++ 42 :: [c1, c2]) =
        71 :: ([48, 48, 48, 48, 58] ++ writeDigitsBE n ++
        [58, 48, 58, 48, 58, 48, 58, 48, 58, 48]) ++ 42 :: [c1, c2] := by
      refine strip_line_ending_id ?_ ?_ <;> rw [getLast?_structured] <;> simp <;>
        omega
    unfold parse
    rw [hstrip]
    unfold parse_full_state
    rw [if_neg (show ¬((71 : Nat) :: ([48, 48, 48, 48, 58] ++ writeDigitsBE n ++
      [58, 48, 58, 48, 58, 48, 58, 48, 58, 48]) ++ 42 :: [c1, c2]).head? ≠ some 71
      from by simp)]
    rw [extract_verified_payload_structured
      (by simp [MIN_FULL_STATE_LEN]; omega) h1 h2, if_pos hck]
    simp only [except_bind_ok]
    rw [splitColon_overflow_payload (writeDigitsBE n) hD]
    simp only [show parse_hex_u16 [48, 48, 48, 48] = Except.ok 0 from by decide,
      parse_i16_digits_overflow hn, except_bind_ok, except_bind_error]

/-- Witness for C8 at the claim's own boundary value: the update line
`"ULX:32768*16"` (correct checksum `0x16`) is rejected with the parse
error, through the general message-level clause. -/
theorem claim8_numeric_overflow_witness :
    32767 < 32768 ∧ hex_digit 49 = .ok 1 ∧ hex_digit 54 = .ok 6 ∧
    calculate_checksum ([76, 88, 58] ++ writeDigitsBE 32768) = 1 * 16 + 6 ∧
    parse_message (85 :: ([76, 88, 58] ++ writeDigitsBE 32768) ++ 42 :: [49, 54]) =
      .error .Parse := by
  have hW : writeDigitsBE 32768 = [51, 50, 55, 54, 56] := by
    simp [writeDigitsBE, decDigitsLE]
  have hck : calculate_checksum ([76, 88, 58] ++ writeDigitsBE 32768) = 1 * 16 + 6 := by
    rw [hW]
    decide
  exact ⟨by decide, by decide, by decide, hck,
    claim8_numeric_overflow.2.2.2.1 32768 49 54 1 6 (by decide) (by decide)
      (by decide) hck⟩

/-! ## MAVLink parser: buffer-prefix agreement machinery

`push_byte` only ever reads the buffer below the write position, so two
parsers whose buffers agree below the (equal) position behave
identically.  The lemmas below make the read-set explicit. -/

theorem take_agree_getD {l1 l2 : List Nat} {n i : Nat}
    (h : l1.take n = l2.take n) (hi : i < n) :
    l1.getD i 0 = l2.getD i 0 := by
  have hq := congrArg (fun t : List Nat => t[i]?) h
  simp only [List.getElem?_take, if_pos hi] at hq
  simp [List.getD_eq_getElem?_getD, hq]

theorem drop_take_agree {l1 l2 : List Nat} {e s n : Nat}
    (h : l1.take e = l2.take e) (hsn : s + n ≤ e) :
    (l1.drop s).take n = (l2.drop s).take n := by
  apply List.ext_getElem?
  intro i
  rw [List.getElem?_take, List.getElem?_take]
  by_cases hi : i < n
  · rw [if_pos hi, if_pos hi, List.getElem?_drop, List.getElem?_drop]
    have hq := congrArg (fun t : List Nat => t[s + i]?) h
    simpa [List.getElem?_take, if_pos (show s + i < e by omega)] using hq
  · rw [if_neg hi, if_neg hi]

theorem set_take_succ {l1 l2 : List Nat} {n : Nat}
    (hlen : l1.length = l2.length) (h : l1.take n = l2.take n) (b : Nat) :
    (l1.set n b).take (n + 1) = (l2.set n b).take (n + 1) := by
  by_cases hn : n < l1.length
  · have hn2 : n < l2.length := hlen ▸ hn
    apply List.ext_getElem?
    intro i
    rw [List.getElem?_take, List.getElem?_take]
    by_cases hi : i < n + 1
    · rw [if_pos hi, if_pos hi]
      by_cases hin : i = n
      · subst hin
        rw [List.getElem?_set_self hn, List.getElem?_set_self hn2]
      · rw [List.getElem?_set_ne (show n ≠ i by omega),
          List.getElem?_set_ne (show n ≠ i by omega)]
        have hq := congrArg (fun t : List Nat => t[i]?) h
        simpa [List.getElem?_take, if_pos (show i < n by omega)] using hq
    · rw [if_neg hi, if_neg hi]
  · have h12 : l1 = l2 := by
      rw [← List.take_of_length_le (show l1.length ≤ n by omega),
        ← List.take_of_length_le (show l2.length ≤ n by omega)]
      exact h
    rw [h12]

theorem getD_set_ne {l : List Nat} {i j : Nat} (h : i ≠ j) (b : Nat) :
    (l.set i b).getD j 0 = l.getD j 0 := by
  simp [List.getD_eq_getElem?_getD, List.getElem?_set_ne h]

theorem getD_set_self {l : List Nat} {i : Nat} (h : i < l.length) (b : Nat) :
    (l.set i b).getD i 0 = b := by
  simp [List.getD_eq_getElem?_getD, List.getElem?_set_self h]

theorem headerSizeOf_bounds (b0 : Nat) :
    headerSizeOf b0 = 10 ∨ headerSizeOf b0 = 6 := by
  unfold headerSizeOf
  split
  · exact Or.inl rfl
  · exact Or.inr rfl

/-- `push_byte` in the `WaitingForStart` state, written out. -/
theorem push_byte_waiting {B : List Nat} {pos : Nat} (b : Nat) :
    push_byte ⟨B, pos, .WaitingForStart⟩ b =
      if b = MAVLINK_STX_V1 ∨ b = MAVLINK_STX_V2 then
        (⟨B.set 0 b, 1, .ReadingHeader⟩, .ok none)
      else (⟨B, pos, .WaitingForStart⟩, .ok none) := rfl

/-- `push_byte` in the `ReadingHeader` state, written out. -/
theorem push_byte_header {B : List Nat} {pos : Nat} (b : Nat) :
    push_byte ⟨B, pos, .ReadingHeader⟩ b =
      if pos + 1 ≥ headerSizeOf ((B.set pos b).getD 0 0) then
        if headerSizeOf ((B.set pos b).getD 0 0) + (B.set pos b).getD 1 0 + 2 >
            MAX_FRAME_SIZE then
          (⟨B.set pos b, 0, .WaitingForStart⟩, .error .InvalidStart)
        else
          (⟨B.set pos b, pos + 1,
            .ReadingPayload
              (headerSizeOf ((B.set pos b).getD 0 0) + (B.set pos b).getD 1 0 + 2)⟩,
           .ok none)
      else (⟨B.set pos b, pos + 1, .ReadingHeader⟩, .ok none) := rfl

/-- `push_byte` in the `ReadingPayload` state, written out. -/
theorem push_byte_payload {B : List Nat} {pos e : Nat} (b : Nat) :
    push_byte ⟨B, pos, .ReadingPayload e⟩ b =
      if pos + 1 ≥ e then
        (⟨B.set pos b, 0, .WaitingForStart⟩, parse_frame (B.set pos b))
      else (⟨B.set pos b, pos + 1, .ReadingPayload e⟩, .ok none) := rfl

/-- The CRC check and decode of `parse_frame`, with every buffer read
abstracted into an argument. -/
def checkedAbs (crcList payload_list : List Nat)
    (payload_len r1 r2 crc_extra msg_id : Nat) :
    Except MavParseError (Option MavMessage) :=
  let calculated_crc := crc16_mcrf4xx crcList crc_extra
  let received_crc := r1 + r2 * 256
  if calculated_crc ≠ received_crc then .error .CrcError
  else if msg_id = MSG_ID_MANUAL_CONTROL then
    if payload_len < 11 then .error .Incomplete
    else
      .ok (some (.ManualControl
        { target := payload_list.getD 0 0
          x := parse_frame.i16_from_le (payload_list.getD 1 0) (payload_list.getD 2 0)
          y := parse_frame.i16_from_le (payload_list.getD 3 0) (payload_list.getD 4 0)
          z := parse_frame.i16_from_le (payload_list.getD 5 0) (payload_list.getD 6 0)
          r := parse_frame.i16_from_le (payload_list.getD 7 0) (payload_list.getD 8 0)
          buttons := payload_list.getD 9 0 + payload_list.getD 10 0 * 256
          buttons2 :=
            if payload_len ≥ 13 then
              payload_list.getD 11 0 + payload_list.getD 12 0 * 256
            else 0 }))
  else .ok (some .Heartbeat)

/-- The message-id dispatch of `parse_frame`, over abstracted reads. -/
def frameDispatch (crcList payload : List Nat)
    (payload_len msg_id r1 r2 : Nat) :
    Except MavParseError (Option MavMessage) :=
  if msg_id = MSG_ID_MANUAL_CONTROL then
    checkedAbs crcList payload payload_len r1 r2 CRC_EXTRA_MANUAL_CONTROL msg_id
  else if msg_id = MSG_ID_HEARTBEAT then
    checkedAbs crcList payload payload_len r1 r2 CRC_EXTRA_HEARTBEAT msg_id
  else .ok (some (.Unknown msg_id))

/-- `parse_frame` reads the buffer only through the explicit reads
passed to `frameDispatch`. -/
theorem parse_frame_as_reads (B : List Nat) :
    parse_frame B =
      if B.getD 0 0 = MAVLINK_STX_V2 then
        frameDispatch ((B.drop 1).take (10 + B.getD 1 0 - 1))
          ((B.drop 10).take (B.getD 1 0)) (B.getD 1 0)
          (B.getD 7 0 + B.getD 8 0 * 256 + B.getD 9 0 * 65536)
          (B.getD (10 + B.getD 1 0) 0) (B.getD (10 + B.getD 1 0 + 1) 0)
      else
        frameDispatch ((B.drop 1).take (6 + B.getD 1 0 - 1))
          ((B.drop 6).take (B.getD 1 0)) (B.getD 1 0) (B.getD 5 0)
          (B.getD (6 + B.getD 1 0) 0) (B.getD (6 + B.getD 1 0 + 1) 0) := by
  by_cases hv2 : B.getD 0 0 = MAVLINK_STX_V2
  · have hv2' : B[0]?.getD 0 = MAVLINK_STX_V2 := by
      rw [← List.getD_eq_getElem?_getD]
      exact hv2
    simp [parse_frame, frameDispatch, checkedAbs, parse_frame.parse_frame_checked,
      hv2, hv2']
  · have hv2' : ¬B[0]?.getD 0 = MAVLINK_STX_V2 := by
      rw [← List.getD_eq_getElem?_getD]
      exact hv2
    simp [parse_frame, frameDispatch, checkedAbs, parse_frame.parse_frame_checked,
      hv2, hv2']

/-- Two buffers agreeing on the whole declared frame are parsed
identically. -/
theorem parse_frame_agrees {B1 B2 : List Nat} {e : Nat}
    (hT : B1.take e = B2.take e)
    (he : headerSizeOf (B1.getD 0 0) + B1.getD 1 0 + 2 = e) :
    parse_frame B1 = parse_frame B2 := by
  have hgd : ∀ i, i < e → B1.getD i 0 = B2.getD i 0 :=
    fun i hi => take_agree_getD hT hi
  have hdt : ∀ s n, s + n ≤ e → (B1.drop s).take n = (B2.drop s).take n :=
    fun s n hsn => drop_take_agree hT hsn
  have hs6 : 6 ≤ headerSizeOf (B1.getD 0 0) := by
    rcases headerSizeOf_bounds (B1.getD 0 0) with hh | hh <;> omega
  have h0 : B1.getD 0 0 = B2.getD 0 0 := hgd 0 (by omega)
  have h1 : B1.getD 1 0 = B2.getD 1 0 := hgd 1 (by omega)
  rw [parse_frame_as_reads B1, parse_frame_as_reads B2, ← h0, ← h1]
  by_cases hv2 : B1.getD 0 0 = MAVLINK_STX_V2
  · have hh : headerSizeOf (B1.getD 0 0) = 10 := by
      unfold headerSizeOf
      rw [if_pos hv2]
    rw [if_pos hv2, if_pos hv2,
      ← hgd 7 (by omega), ← hgd 8 (by omega), ← hgd 9 (by omega),
      ← hgd (10 + B1.getD 1 0) (by omega),
      ← hgd (10 + B1.getD 1 0 + 1) (by omega),
      ← hdt 1 (10 + B1.getD 1 0 - 1) (by omega),
      ← hdt 10 (B1.getD 1 0) (by omega)]
  · have hh : headerSizeOf (B1.getD 0 0) = 6 := by
      unfold headerSizeOf
      rw [if_neg hv2]
    rw [if_neg hv2, if_neg hv2,
      ← hgd 5 (by omega),
      ← hgd (6 + B1.getD 1 0) (by omega),
      ← hgd (6 + B1.getD 1 0 + 1) (by omega),
      ← hdt 1 (6 + B1.getD 1 0 - 1) (by omega),
      ← hdt 6 (B1.getD 1 0) (by omega)]

/-- Well-formedness of a parser state: the buffer has its fixed size
and the position sits inside the region the current state may write,
with `ReadingPayload`'s expected length derived from the header bytes
already in the buffer. -/
def MavWf (p : MavlinkParser) : Prop :=
  p.buffer.length = MAX_FRAME_SIZE ∧
  match p.state with
  | .WaitingForStart => p.pos = 0
  | .ReadingHeader => 1 ≤ p.pos ∧ p.pos < headerSizeOf (p.buffer.getD 0 0)
  | .ReadingPayload e =>
    headerSizeOf (p.buffer.getD 0 0) ≤ p.pos ∧ p.pos < e ∧
    e ≤ MAX_FRAME_SIZE ∧
    e = headerSizeOf (p.buffer.getD 0 0) + p.buffer.getD 1 0 + 2

instance decMavWf (p : MavlinkParser) : Decidable (MavWf p) := by
  rcases p with ⟨B, pos, _ | _ | e⟩
  · exact inferInstanceAs (Decidable (B.length = MAX_FRAME_SIZE ∧ pos = 0))
  · exact inferInstanceAs (Decidable (B.length = MAX_FRAME_SIZE ∧
      1 ≤ pos ∧ pos < headerSizeOf (B.getD 0 0)))
  · exact inferInstanceAs (Decidable (B.length = MAX_FRAME_SIZE ∧
      headerSizeOf (B.getD 0 0) ≤ pos ∧ pos < e ∧ e ≤ MAX_FRAME_SIZE ∧
      e = headerSizeOf (B.getD 0 0) + B.getD 1 0 + 2))

theorem mavWf_waiting {B : List Nat} {pos : Nat} :
    MavWf ⟨B, pos, .WaitingForStart⟩ ↔
      B.length = MAX_FRAME_SIZE ∧ pos = 0 := Iff.rfl

theorem mavWf_header {B : List Nat} {pos : Nat} :
    MavWf ⟨B, pos, .ReadingHeader⟩ ↔
      B.length = MAX_FRAME_SIZE ∧ 1 ≤ pos ∧
      pos < headerSizeOf (B.getD 0 0) := Iff.rfl

theorem mavWf_payload {B : List Nat} {pos e : Nat} :
    MavWf ⟨B, pos, .ReadingPayload e⟩ ↔
      B.length = MAX_FRAME_SIZE ∧ headerSizeOf (B.getD 0 0) ≤ pos ∧
      pos < e ∧ e ≤ MAX_FRAME_SIZE ∧
      e = headerSizeOf (B.getD 0 0) + B.getD 1 0 + 2 := Iff.rfl

theorem mavWf_new : MavWf MavlinkParser.new :=
  ⟨by simp [MavlinkParser.new], rfl⟩

theorem mavWf_pos_lt {p : MavlinkParser} (h : MavWf p) :
    p.pos < MAX_FRAME_SIZE := by
  have h280 : MAX_FRAME_SIZE = 280 := rfl
  rcases p with ⟨B, pos, _ | _ | e⟩
  · obtain ⟨-, h0⟩ := mavWf_waiting.mp h
    show pos < MAX_FRAME_SIZE
    omega
  · obtain ⟨-, -, hlt⟩ := mavWf_header.mp h
    show pos < MAX_FRAME_SIZE
    rcases headerSizeOf_bounds (B.getD 0 0) with hh | hh <;> omega
  · obtain ⟨-, -, hlt, hle, -⟩ := mavWf_payload.mp h
    show pos < MAX_FRAME_SIZE
    omega

/-- `push_byte` preserves well-formedness. -/
theorem mavWf_push_byte {p : MavlinkParser} (h : MavWf p) (b : Nat) :
    MavWf (push_byte p b).1 := by
  have h280 : MAX_FRAME_SIZE = 280 := rfl
  rcases p with ⟨B, pos, _ | _ | e⟩
  · obtain ⟨hlen, hpos⟩ := mavWf_waiting.mp h
    rw [push_byte_waiting]
    by_cases hb : b = MAVLINK_STX_V1 ∨ b = MAVLINK_STX_V2
    · rw [if_pos hb]
      refine mavWf_header.mpr ⟨by rw [List.length_set]; exact hlen, by omega, ?_⟩
      rw [getD_set_self (by omega) b]
      rcases headerSizeOf_bounds b with hh | hh <;> omega
    · rw [if_neg hb]
      exact mavWf_waiting.mpr ⟨hlen, hpos⟩
  · obtain ⟨hlen, hpos1, hposh⟩ := mavWf_header.mp h
    rw [push_byte_header]
    have hlen' : (B.set pos b).length = MAX_FRAME_SIZE := by
      rw [List.length_set]
      exact hlen
    have hg0 : (B.set pos b).getD 0 0 = B.getD 0 0 := getD_set_ne (by omega) b
    by_cases hge : pos + 1 ≥ headerSizeOf ((B.set pos b).getD 0 0)
    · rw [if_pos hge]
      by_cases hbig : headerSizeOf ((B.set pos b).getD 0 0) +
          (B.set pos b).getD 1 0 + 2 > MAX_FRAME_SIZE
      · rw [if_pos hbig]
        exact mavWf_waiting.mpr ⟨hlen', rfl⟩
      · rw [if_neg hbig]
        refine mavWf_payload.mpr ⟨hlen', hge, ?_, by omega, rfl⟩
        have hposh' : pos < headerSizeOf ((B.set pos b).getD 0 0) := by
          rw [hg0]
          exact hposh
        omega
    · rw [if_neg hge]
      exact mavWf_header.mpr ⟨hlen', by omega, by omega⟩
  · obtain ⟨hlen, hhs, hpe, he280, heq⟩ := mavWf_payload.mp h
    rw [push_byte_payload]
    have hs6 : 6 ≤ headerSizeOf (B.getD 0 0) := by
      rcases headerSizeOf_bounds (B.getD 0 0) with hh | hh <;> omega
    have hlen' : (B.set pos b).length = MAX_FRAME_SIZE := by
      rw [List.length_set]
      exact hlen
    by_cases hc : pos + 1 ≥ e
    · rw [if_pos hc]
      exact mavWf_waiting.mpr ⟨hlen', rfl⟩
    · rw [if_neg hc]
      have hg0 : (B.set pos b).getD 0 0 = B.getD 0 0 := getD_set_ne (by omega) b
      have hg1 : (B.set pos b).getD 1 0 = B.getD 1 0 := getD_set_ne (by omega) b
      refine mavWf_payload.mpr ⟨hlen', ?_, by omega, he280, ?_⟩
      · rw [hg0]
        omega
      · rw [hg0, hg1]
        exact heq

/-- Two parsers in the same state and position whose buffers agree
below the position: they produce the same results forever. -/
def MavBisim (p q : MavlinkParser) : Prop :=
  p.pos = q.pos ∧ p.state = q.state ∧
  p.buffer.length = MAX_FRAME_SIZE ∧ q.buffer.length = MAX_FRAME_SIZE ∧
  p.buffer.take p.pos = q.buffer.take q.pos ∧ MavWf p ∧ MavWf q

theorem mavBisim_step {p q : MavlinkParser} (h : MavBisim p q) (b : Nat) :
    (push_byte p b).2 = (push_byte q b).2 ∧
    MavBisim (push_byte p b).1 (push_byte q b).1 := by
  have h280 : MAX_FRAME_SIZE = 280 := rfl
  obtain ⟨hpos0, hstate0, hlp0, hlq0, htake0, hwp, hwq⟩ := h
  rcases p with ⟨B1, pos1, st1⟩
  rcases q with ⟨B2, pos2, st2⟩
  have hpos : pos1 = pos2 := hpos0
  have hstate : st1 = st2 := hstate0
  subst hpos
  subst hstate
  have hlp : B1.length = MAX_FRAME_SIZE := hlp0
  have hlq : B2.length = MAX_FRAME_SIZE := hlq0
  have htake : B1.take pos1 = B2.take pos1 := htake0
  rcases st1 with _ | _ | e
  · -- WaitingForStart: the buffer is never read
    have hp0 : pos1 = 0 := (mavWf_waiting.mp hwp).2
    subst hp0
    rw [push_byte_waiting, push_byte_waiting]
    by_cases hb : b = MAVLINK_STX_V1 ∨ b = MAVLINK_STX_V2
    · have hwp' := mavWf_push_byte hwp b
      have hwq' := mavWf_push_byte hwq b
      rw [push_byte_waiting, if_pos hb] at hwp' hwq'
      rw [if_pos hb, if_pos hb]
      exact ⟨rfl, rfl, rfl, by rw [List.length_set]; exact hlp,
        by rw [List.length_set]; exact hlq,
        set_take_succ (hlp.trans hlq.symm) (by simp) b, hwp', hwq'⟩
    · rw [if_neg hb, if_neg hb]
      exact ⟨rfl, rfl, rfl, hlp, hlq, htake, hwp, hwq⟩
  · -- ReadingHeader
    obtain ⟨-, hp1, hph⟩ := mavWf_header.mp hwp
    have hwp' := mavWf_push_byte hwp b
    have hwq' := mavWf_push_byte hwq b
    rw [push_byte_header] at hwp' hwq'
    rw [push_byte_header, push_byte_header]
    have hg0 : (B1.set pos1 b).getD 0 0 = (B2.set pos1 b).getD 0 0 := by
      rw [getD_set_ne (show pos1 ≠ 0 by omega) b,
        getD_set_ne (show pos1 ≠ 0 by omega) b]
      exact take_agree_getD htake (show 0 < pos1 by omega)
    by_cases hge : pos1 + 1 ≥ headerSizeOf ((B1.set pos1 b).getD 0 0)
    · have hge2 : pos1 + 1 ≥ headerSizeOf ((B2.set pos1 b).getD 0 0) := by
        rw [← hg0]
        exact hge
      rw [if_pos hge] at hwp'
      rw [if_pos hge2] at hwq'
      rw [if_pos hge, if_pos hge2]
      have hs6 : 6 ≤ headerSizeOf ((B1.set pos1 b).getD 0 0) := by
        rcases headerSizeOf_bounds ((B1.set pos1 b).getD 0 0) with hh | hh <;> omega
      have hg1 : (B1.set pos1 b).getD 1 0 = (B2.set pos1 b).getD 1 0 := by
        rw [getD_set_ne (show pos1 ≠ 1 by omega) b,
          getD_set_ne (show pos1 ≠ 1 by omega) b]
        exact take_agree_getD htake (show 1 < pos1 by omega)
      by_cases hbig : headerSizeOf ((B1.set pos1 b).getD 0 0) +
          (B1.set pos1 b).getD 1 0 + 2 > MAX_FRAME_SIZE
      · have hbig2 : headerSizeOf ((B2.set pos1 b).getD 0 0) +
            (B2.set pos1 b).getD 1 0 + 2 > MAX_FRAME_SIZE := by
          rw [← hg0, ← hg1]
          exact hbig
        rw [if_pos hbig] at hwp'
        rw [if_pos hbig2] at hwq'
        rw [if_pos hbig, if_pos hbig2]
        exact ⟨rfl, rfl, rfl, by rw [List.length_set]; exact hlp,
          by rw [List.length_set]; exact hlq, rfl, hwp', hwq'⟩
      · have hbig2 : ¬(headerSizeOf ((B2.set pos1 b).getD 0 0) +
            (B2.set pos1 b).getD 1 0 + 2 > MAX_FRAME_SIZE) := by
          rw [← hg0, ← hg1]
          exact hbig
        rw [if_neg hbig] at hwp'
        rw [if_neg hbig2] at hwq'
        rw [if_neg hbig, if_neg hbig2]
        refine ⟨rfl, rfl, ?_, by rw [List.length_set]; exact hlp,
          by rw [List.length_set]; exact hlq,
          set_take_succ (hlp.trans hlq.symm) htake b, hwp', hwq'⟩
        show ParserState.ReadingPayload _ = ParserState.ReadingPayload _
        rw [hg0, hg1]
    · have hge2 : ¬(pos1 + 1 ≥ headerSizeOf ((B2.set pos1 b).getD 0 0)) := by
        rw [← hg0]
        exact hge
      rw [if_neg hge] at hwp'
      rw [if_neg hge2] at hwq'
      rw [if_neg hge, if_neg hge2]
      exact ⟨rfl, rfl, rfl, by rw [List.length_set]; exact hlp,
        by rw [List.length_set]; exact hlq,
        set_take_succ (hlp.trans hlq.symm) htake b, hwp', hwq'⟩
  · -- ReadingPayload
    obtain ⟨-, hhs, hpe, he280, heq1⟩ := mavWf_payload.mp hwp
    have hs6 : 6 ≤ headerSizeOf (B1.getD 0 0) := by
      rcases headerSizeOf_bounds (B1.getD 0 0) with hh | hh <;> omega
    have hwp' := mavWf_push_byte hwp b
    have hwq' := mavWf_push_byte hwq b
    rw [push_byte_payload] at hwp' hwq'
    rw [push_byte_payload, push_byte_payload]
    by_cases hc : pos1 + 1 ≥ e
    · rw [if_pos hc] at hwp' hwq'
      rw [if_pos hc, if_pos hc]
      refine ⟨?_, rfl, rfl, by rw [List.length_set]; exact hlp,
        by rw [List.length_set]; exact hlq, rfl, hwp', hwq'⟩
      show parse_frame (B1.set pos1 b) = parse_frame (B2.set pos1 b)
      have htk : (B1.set pos1 b).take (pos1 + 1) = (B2.set pos1 b).take (pos1 + 1) :=
        set_take_succ (hlp.trans hlq.symm) htake b
      have hpe1 : pos1 + 1 = e := by omega
      refine @parse_frame_agrees _ _ e ?_ ?_
      · rw [← hpe1]
        exact htk
      · rw [getD_set_ne (show pos1 ≠ 0 by omega) b,
          getD_set_ne (show pos1 ≠ 1 by omega) b]
        omega
    · rw [if_neg hc] at hwp' hwq'
      rw [if_neg hc, if_neg hc]
      exact ⟨rfl, rfl, rfl, by rw [List.length_set]; exact hlp,
        by rw [List.length_set]; exact hlq,
        set_take_succ (hlp.trans hlq.symm) htake b, hwp', hwq'⟩

theorem mavBisim_runResults {p q : MavlinkParser} (h : MavBisim p q)
    (bytes : List Nat) : runResults p bytes = runResults q bytes := by
  induction bytes generalizing p q with
  | nil => rfl
  | cons b rest ih =>
    obtain ⟨hr, hb⟩ := mavBisim_step h b
    simp only [runResults]
    rw [hr, ih hb]

/-- A parser mid-header for a MAVLink 2 frame whose header declares an
oversized payload (model value 300 in the length slot), one byte short
of the length check. -/
def mavDemo : MavlinkParser :=
  ⟨253 :: 300 :: List.replicate 278 0, 9, .ReadingHeader⟩

/-- C3: whenever `push_byte` produces a terminal outcome (anything but
`Ok(None)` — a parsed message, an `Unknown` result, or an error), the
resulting parser is `WaitingForStart` at position 0, and (for any
well-formed parser) its results on every subsequent byte sequence are
identical to those of a freshly constructed parser. -/
theorem claim3_terminal_result_resets :
    ∀ (p : MavlinkParser) (b : Nat),
      (push_byte p b).2 ≠ .ok none →
      (push_byte p b).1.pos = 0 ∧
      (push_byte p b).1.state = .WaitingForStart ∧
      (MavWf p → ∀ bytes, runResults (push_byte p b).1 bytes =
        runResults MavlinkParser.new bytes) := by
  intro p b hterm
  rcases p with ⟨B, pos, _ | _ | e⟩
  · exfalso
    apply hterm
    rw [push_byte_waiting]
    by_cases hb : b = MAVLINK_STX_V1 ∨ b = MAVLINK_STX_V2
    · rw [if_pos hb]
    · rw [if_neg hb]
  · rw [push_byte_header] at hterm ⊢
    by_cases hge : pos + 1 ≥ headerSizeOf ((B.set pos b).getD 0 0)
    · rw [if_pos hge] at hterm ⊢
      by_cases hbig : headerSizeOf ((B.set pos b).getD 0 0) +
          (B.set pos b).getD 1 0 + 2 > MAX_FRAME_SIZE
      · rw [if_pos hbig] at hterm ⊢
        refine ⟨rfl, rfl, ?_⟩
        intro hwf bytes
        apply mavBisim_runResults
        have hlen : B.length = MAX_FRAME_SIZE := (mavWf_header.mp hwf).1
        exact ⟨rfl, rfl, by rw [List.length_set]; exact hlen,
          by simp [MavlinkParser.new], by simp [MavlinkParser.new],
          mavWf_waiting.mpr ⟨by rw [List.length_set]; exact hlen, rfl⟩, mavWf_new⟩
      · rw [if_neg hbig] at hterm
        exact absurd rfl hterm
    · rw [if_neg hge] at hterm
      exact absurd rfl hterm
  · rw [push_byte_payload] at hterm ⊢
    by_cases hc : pos + 1 ≥ e
    · rw [if_pos hc] at hterm ⊢
      refine ⟨rfl, rfl, ?_⟩
      intro hwf bytes
      apply mavBisim_runResults
      have hlen : B.length = MAX_FRAME_SIZE := (mavWf_payload.mp hwf).1
      exact ⟨rfl, rfl, by rw [List.length_set]; exact hlen,
        by simp [MavlinkParser.new], by simp [MavlinkParser.new],
        mavWf_waiting.mpr ⟨by rw [List.length_set]; exact hlen, rfl⟩, mavWf_new⟩
    · rw [if_neg hc] at hterm
      exact absurd rfl hterm

set_option maxRecDepth 4000 in
/-- Witness for C3 at a concrete mid-header parser whose next byte
triggers the oversize check: the call errors, the parser resets, and
its subsequent results match a fresh parser on a sample stream. -/
theorem claim3_terminal_result_resets_witness :
    (push_byte mavDemo 0).2 ≠ .ok none ∧
    (push_byte mavDemo 0).1.pos = 0 ∧
    (push_byte mavDemo 0).1.state = .WaitingForStart ∧
    runResults (push_byte mavDemo 0).1 [253, 5] =
      runResults MavlinkParser.new [253, 5] := by
  have h := claim3_terminal_result_resets mavDemo 0 (by decide)
  exact ⟨by decide, h.1, h.2.1, h.2.2 (by decide) [253, 5]⟩

/-- C4: along every byte stream from a fresh parser the internal state
stays well-formed and the write position stays strictly below
`MAX_FRAME_SIZE` (so no buffer access at or past index 280 ever
happens), and whenever a completed header declares a total frame size
exceeding `MAX_FRAME_SIZE`, `push_byte` resets the parser and returns
the `InvalidStart` error instead of continuing toward an out-of-bounds
write. -/
theorem claim4_buffer_position_bounded :
    (∀ bytes : List Nat, MavWf (runState MavlinkParser.new bytes) ∧
      (runState MavlinkParser.new bytes).pos < MAX_FRAME_SIZE) ∧
    (∀ (B : List Nat) (pos b : Nat),
      pos + 1 ≥ headerSizeOf ((B.set pos b).getD 0 0) →
      headerSizeOf ((B.set pos b).getD 0 0) + (B.set pos b).getD 1 0 + 2 >
        MAX_FRAME_SIZE →
      push_byte ⟨B, pos, .ReadingHeader⟩ b =
        (⟨B.set pos b, 0, .WaitingForStart⟩, .error .InvalidStart)) := by
  constructor
  · have hrun : ∀ (bytes : List Nat) (p : MavlinkParser),
        MavWf p → MavWf (runState p bytes) := by
      intro bytes
      induction bytes with
      | nil => intro p hp; exact hp
      | cons b rest ih => intro p hp; exact ih _ (mavWf_push_byte hp b)
    intro bytes
    have hw := hrun bytes _ mavWf_new
    exact ⟨hw, mavWf_pos_lt hw⟩
  · intro B pos b hge hbig
    rw [push_byte_header, if_pos hge, if_pos hbig]

set_option maxRecDepth 4000 in
/-- Witness for C4: a fresh parser stays well-formed and in bounds on
a sample stream, and the oversize-header input from `mavDemo` takes
the reset-and-error branch. -/
theorem claim4_buffer_position_bounded_witness :
    (MavWf (runState MavlinkParser.new [253, 255, 0]) ∧
      (runState MavlinkParser.new [253, 255, 0]).pos < MAX_FRAME_SIZE) ∧
    push_byte ⟨253 :: 300 :: List.replicate 278 0, 9, .ReadingHeader⟩ 0 =
      (⟨(253 :: 300 :: List.replicate 278 0).set 9 0, 0, .WaitingForStart⟩,
       .error .InvalidStart) :=
  ⟨claim4_buffer_position_bounded.1 [253, 255, 0],
   claim4_buffer_position_bounded.2 (253 :: 300 :: List.replicate 278 0) 9 0
     (by decide) (by decide)⟩

end UartGamepad
